import Mathlib

/-!
# Verification of the universal web3 hooks

Shallow embedding of the two React hooks of this repository:

* `src/transaction.ts` — `useUniversalTransaction`, a two-phase
  approve-then-transact orchestrator built on wagmi's `useWriteContract`
  and `useWaitForTransactionReceipt`;
* `src/read.ts` — `useUniversalReadContract`, a delegate over wagmi's
  `useReadContract`.

The orchestrator is modelled as a transition system.  A `HookState` holds
the hook's `useState` cells, the state of the two wagmi write clients, and
the state of the two receipt watchers.  External happenings (the user
calling `execute`/`reset`, a write resolving with a hash or an error, a
receipt confirming or failing) are `Event`s.  After an event's primitive
update, React re-renders and re-runs the `useEffect`s whose dependency
arrays changed; this is `renderLoop`, iterating `effectsPass` until the
dependency snapshot stabilises.  Each `useEffect` of the source is one
`eff…` function; an effect body reads the render snapshot `s` and writes
into the accumulated state `t`, matching React's closure semantics.

Calls into the outside world (contract writes submitted via
`writeContract`, user callbacks such as `onApprovalError`) are recorded as
`Output`s; emitting a callback output models invoking the corresponding
(optional) callback prop.
-/

namespace Hooks

/-- Transaction hashes (`0x…` strings in the source). -/
abbrev Hash := String

/-- Error values.  The orchestrator only stores and forwards errors, so
their payload is opaque; a string stands in for the `Error` object. -/
abbrev Err := String

/-- Addresses (`Address` from viem). -/
abbrev Addr := String

/-- ABIs (`Abi` from viem) are opaque to the hooks. -/
abbrev AbiT := String

/-- A contract-call argument.  The hooks never inspect arguments, they only
forward them; `approve` receives an address and an amount. -/
inductive ArgVal where
  | addr (a : Addr)
  | amt (n : Int)
  | raw (v : String)
  deriving DecidableEq, Repr

/-- `amount: bigint | string` of `ApprovalConfig`. -/
inductive Amount where
  | big (n : Int)
  | str (v : String)
  deriving DecidableEq, Repr

/-- Splits a digit sequence at the first `'.'` (decimal point). -/
def splitDot : List Char → List Char × List Char
  | [] => ([], [])
  | c :: cs =>
      if c = '.' then ([], cs)
      else
        let r := splitDot cs
        (c :: r.1, r.2)

/-- Value of a string of decimal digits. -/
def digitsVal (cs : List Char) : Nat :=
  cs.foldl (fun a c => a * 10 + (c.toNat - 48)) 0

/-- Model of viem's `parseUnits`: parses a decimal string into an integer
scaled by `10 ^ decimals` (fractional digits beyond `decimals` dropped).
`parseUnits` is external-library code; the orchestrator only applies it. -/
def parseUnits (value : String) (decimals : Nat) : Int :=
  let signSplit : Bool × List Char :=
    match value.data with
    | '-' :: rest => (true, rest)
    | cs => (false, cs)
  let parts := splitDot signSplit.2
  let frac := parts.2.take decimals
  let fracPadded := frac ++ List.replicate (decimals - frac.length) '0'
  let mag : Nat := digitsVal parts.1 * 10 ^ decimals + digitsVal fracPadded
  if signSplit.1 then -(mag : Int) else (mag : Int)

/-- `ApprovalConfig` of `src/transaction.ts`. -/
structure ApprovalConfig where
  tokenAddress : Addr
  tokenAbi : AbiT
  spenderAddress : Addr
  amount : Amount
  decimals : Option Nat
  deriving DecidableEq, Repr

/-- `TransactionConfig` of `src/transaction.ts`. -/
structure TransactionConfig where
  contractAddress : Addr
  contractAbi : AbiT
  functionName : String
  args : Option (List ArgVal)
  deriving DecidableEq, Repr

/-- The hook's parameters (`UseUniversalTransactionParams`).  The callback
props are modelled by emitting `Output`s rather than stored here. -/
structure Params where
  approvalConfig : Option ApprovalConfig
  transactionConfig : TransactionConfig
  deriving DecidableEq, Repr

/-- State of one wagmi `useWriteContract` client: whether a mutation is in
flight, and the latest resolution (`data` on success, `error` on failure). -/
structure WriteClient where
  pending : Bool
  data : Option Hash
  error : Option Err
  deriving DecidableEq, Repr

/-- The idle client (also the state after wagmi's `reset()`). -/
def WriteClient.init : WriteClient := { pending := false, data := none, error := none }

/-- State of one `useWaitForTransactionReceipt` query for the current hash:
whether the receipt arrived successfully, or the wait failed.  A fresh
query (no hash, or a newly set hash) is `Receipt.init`. -/
structure Receipt where
  success : Bool
  error : Option Err
  deriving DecidableEq, Repr

/-- A receipt query that has not resolved. -/
def Receipt.init : Receipt := { success := false, error := none }

/-- The dependency-array snapshot of the eight `useEffect`s, in source
order.  Callback props in dependency arrays are constant and omitted.
`d7`/`d8` are `[isApprovalSuccess, approvalHash]` and
`[isTransactionSuccess, transactionHash]`. -/
structure Deps where
  d1 : Option Hash
  d2 : Option Hash
  d3 : Option Err
  d4 : Option Err
  d5 : Option Err
  d6 : Option Err
  d7 : Bool × Option Hash
  d8 : Bool × Option Hash
  deriving DecidableEq, Repr

/-- Full state of one `useUniversalTransaction` instance. -/
structure HookState where
  approvalHash : Option Hash
  transactionHash : Option Hash
  isApproving : Bool
  isTransacting : Bool
  approvalError : Option Err
  transactionError : Option Err
  approvalClient : WriteClient
  transactionClient : WriteClient
  approvalReceipt : Receipt
  transactionReceipt : Receipt
  /-- dependency values observed at the previous render -/
  prevDeps : Deps
  deriving DecidableEq, Repr

/-- Observable outside-world interactions of the hook. -/
inductive Output where
  /-- `writeApproval({address, abi, functionName, args})` submitted -/
  | writeApprovalCall (address : Addr) (abi : AbiT) (functionName : String) (args : List ArgVal)
  /-- `writeTransaction({address, abi, functionName, args})` submitted -/
  | writeTransactionCall (address : Addr) (abi : AbiT) (functionName : String) (args : List ArgVal)
  | cbApprovalSuccess (h : Hash)
  | cbTransactionSuccess (h : Hash)
  | cbApprovalError (e : Err)
  | cbTransactionError (e : Err)
  | cbFinalSuccess
  deriving DecidableEq, Repr

/-- `isApprovalSuccess` as rendered: the receipt query is keyed by
`approvalHash` (disabled while the hash is `null`). -/
def isApprovalSuccess (s : HookState) : Bool :=
  s.approvalHash.isSome && s.approvalReceipt.success

/-- `isTransactionSuccess` as rendered. -/
def isTransactionSuccess (s : HookState) : Bool :=
  s.transactionHash.isSome && s.transactionReceipt.success

/-- `approvalConfirmError` as rendered (no hash ⇒ disabled query, no error). -/
def approvalConfirmError (s : HookState) : Option Err :=
  if s.approvalHash.isSome then s.approvalReceipt.error else none

/-- `transactionConfirmError` as rendered. -/
def transactionConfirmError (s : HookState) : Option Err :=
  if s.transactionHash.isSome then s.transactionReceipt.error else none

/-- `isApprovingConfirming`: the approval receipt query is fetching. -/
def isApprovingConfirming (s : HookState) : Bool :=
  s.approvalHash.isSome && !s.approvalReceipt.success && s.approvalReceipt.error.isNone

/-- `isTransactionConfirming`: the transaction receipt query is fetching. -/
def isTransactionConfirming (s : HookState) : Bool :=
  s.transactionHash.isSome && !s.transactionReceipt.success && s.transactionReceipt.error.isNone

/-- `isLoading` of the returned `TransactionState` (lines 292–296). -/
def isLoading (s : HookState) : Bool :=
  s.isApproving || isApprovingConfirming s || s.isTransacting || isTransactionConfirming s

/-- `isComplete` of the returned `TransactionState` (lines 297–298):
`(approvalConfig ? isApprovalSuccess : true) && isTransactionSuccess`. -/
def isComplete (P : Params) (s : HookState) : Bool :=
  (match P.approvalConfig with
   | some _ => isApprovalSuccess s
   | none => true) && isTransactionSuccess s

/-- Current dependency values of the eight effects, in source order. -/
def depsOf (s : HookState) : Deps :=
  { d1 := s.approvalClient.data
    d2 := s.transactionClient.data
    d3 := s.approvalClient.error
    d4 := s.transactionClient.error
    d5 := approvalConfirmError s
    d6 := transactionConfirmError s
    d7 := (isApprovalSuccess s, s.approvalHash)
    d8 := (isTransactionSuccess s, s.transactionHash) }

/-- The `approvalAmount` computed in `executeApproval` (lines 200–201):
a `bigint` passes through, a string is parsed with `decimals` (default 18). -/
def approvalAmount (cfg : ApprovalConfig) : Int :=
  match cfg.amount with
  | Amount.str v => parseUnits v (cfg.decimals.getD 18)
  | Amount.big n => n

/-- `executeApproval` (lines 184–223): no-op without an `approvalConfig`;
otherwise set `isApproving`, clear `approvalError`, and submit the
`approve(spenderAddress, approvalAmount)` call on the token contract.
Submitting a wagmi mutation puts the client in the fresh pending state. -/
def executeApproval (P : Params) (s : HookState) : HookState × List Output :=
  match P.approvalConfig with
  | none => (s, [])
  | some cfg =>
      let s := { s with isApproving := true, approvalError := none }
      let s := { s with approvalClient := { pending := true, data := none, error := none } }
      (s, [Output.writeApprovalCall cfg.tokenAddress cfg.tokenAbi "approve"
             [ArgVal.addr cfg.spenderAddress, ArgVal.amt (approvalAmount cfg)]])

/-- `executeTransaction` (lines 226–258): set `isTransacting`, clear
`transactionError`, and submit the configured call (default `args = []`). -/
def executeTransaction (P : Params) (s : HookState) : HookState × List Output :=
  let s := { s with isTransacting := true, transactionError := none }
  let s := { s with transactionClient := { pending := true, data := none, error := none } }
  (s, [Output.writeTransactionCall P.transactionConfig.contractAddress
         P.transactionConfig.contractAbi P.transactionConfig.functionName
         (P.transactionConfig.args.getD [])])

/-- `reset` (lines 280–289): clear all hook state and reset both wagmi
write clients.  Clearing a hash disables its receipt query, so the receipt
views return to the fresh state. -/
def reset (s : HookState) : HookState :=
  { s with
    approvalHash := none
    transactionHash := none
    isApproving := false
    isTransacting := false
    approvalError := none
    transactionError := none
    approvalClient := WriteClient.init
    transactionClient := WriteClient.init
    approvalReceipt := Receipt.init
    transactionReceipt := Receipt.init }

/-- `execute` (lines 261–277): clear all state exactly as `reset` does,
then run the approval step if configured, else the transaction directly. -/
def execute (P : Params) (s : HookState) : HookState × List Output :=
  let s := { s with
    approvalHash := none
    transactionHash := none
    approvalError := none
    transactionError := none
    isApproving := false
    isTransacting := false
    approvalClient := WriteClient.init
    transactionClient := WriteClient.init
    approvalReceipt := Receipt.init
    transactionReceipt := Receipt.init }
  match P.approvalConfig with
  | some _ => executeApproval P s
  | none => executeTransaction P s

/-- Effect 1 (lines 108–112): `if (approvalData) setApprovalHash(approvalData)`. -/
def eff1 (s t : HookState) : HookState :=
  if (depsOf s).d1 ≠ s.prevDeps.d1 then
    match s.approvalClient.data with
    | some h => { t with approvalHash := some h }
    | none => t
  else t

/-- Effect 2 (lines 114–118): `if (transactionData) setTransactionHash(…)`. -/
def eff2 (s t : HookState) : HookState :=
  if (depsOf s).d2 ≠ s.prevDeps.d2 then
    match s.transactionClient.data with
    | some h => { t with transactionHash := some h }
    | none => t
  else t

/-- Effect 3 (lines 121–128): on `approvalWriteError`, set `approvalError`,
stop `isApproving`, invoke `onApprovalError`. -/
def eff3 (s t : HookState) : HookState × List Output :=
  if (depsOf s).d3 ≠ s.prevDeps.d3 then
    match s.approvalClient.error with
    | some e => ({ t with approvalError := some e, isApproving := false },
                 [Output.cbApprovalError e])
    | none => (t, [])
  else (t, [])

/-- Effect 4 (lines 131–138): on `transactionWriteError`, set
`transactionError`, stop `isTransacting`, invoke `onTransactionError`. -/
def eff4 (s t : HookState) : HookState × List Output :=
  if (depsOf s).d4 ≠ s.prevDeps.d4 then
    match s.transactionClient.error with
    | some e => ({ t with transactionError := some e, isTransacting := false },
                 [Output.cbTransactionError e])
    | none => (t, [])
  else (t, [])

/-- Effect 5 (lines 141–148): on `approvalConfirmError`, set
`approvalError`, stop `isApproving`, invoke `onApprovalError`. -/
def eff5 (s t : HookState) : HookState × List Output :=
  if (depsOf s).d5 ≠ s.prevDeps.d5 then
    match approvalConfirmError s with
    | some e => ({ t with approvalError := some e, isApproving := false },
                 [Output.cbApprovalError e])
    | none => (t, [])
  else (t, [])

/-- Effect 6 (lines 151–158): on `transactionConfirmError`, set
`transactionError`, stop `isTransacting`, invoke `onTransactionError`. -/
def eff6 (s t : HookState) : HookState × List Output :=
  if (depsOf s).d6 ≠ s.prevDeps.d6 then
    match transactionConfirmError s with
    | some e => ({ t with transactionError := some e, isTransacting := false },
                 [Output.cbTransactionError e])
    | none => (t, [])
  else (t, [])

/-- Effect 7 (lines 161–172): when the approval is confirmed and no
transaction is in flight or recorded, invoke `onApprovalSuccess` and start
`executeTransaction`.  Dependency array: `[isApprovalSuccess, approvalHash]`. -/
def eff7 (P : Params) (s t : HookState) : HookState × List Output :=
  if (depsOf s).d7 ≠ s.prevDeps.d7 then
    match s.approvalHash with
    | some h =>
        if isApprovalSuccess s && !s.isTransacting && s.transactionHash.isNone then
          let t := { t with isApproving := false }
          let r := executeTransaction P t
          (r.1, Output.cbApprovalSuccess h :: r.2)
        else (t, [])
    | none => (t, [])
  else (t, [])

/-- Effect 8 (lines 175–181): when the transaction is confirmed, stop
`isTransacting` and invoke `onTransactionSuccess` then `onFinalSuccess`. -/
def eff8 (s t : HookState) : HookState × List Output :=
  if (depsOf s).d8 ≠ s.prevDeps.d8 then
    match s.transactionHash with
    | some h =>
        if isTransactionSuccess s then
          ({ t with isTransacting := false },
           [Output.cbTransactionSuccess h, Output.cbFinalSuccess])
        else (t, [])
    | none => (t, [])
  else (t, [])

/-- One render's effect phase: every effect whose dependency array changed
since the previous render runs, each body reading the render snapshot `s`
(React closures) and writing into the accumulated state.  The dependency
snapshot is advanced to this render's values. -/
def effectsPass (P : Params) (s : HookState) : HookState × List Output :=
  let t1 := eff1 s s
  let t2 := eff2 s t1
  let r3 := eff3 s t2
  let r4 := eff4 s r3.1
  let r5 := eff5 s r4.1
  let r6 := eff6 s r5.1
  let r7 := eff7 P s r6.1
  let r8 := eff8 s r7.1
  ({ r8.1 with prevDeps := depsOf s },
   r3.2 ++ r4.2 ++ r5.2 ++ r6.2 ++ r7.2 ++ r8.2)

/-- Re-render until the dependency snapshot is stable (state updates made
by effects trigger further renders).  Fuel-bounded; every event's cascade
stabilises within a few passes. -/
def renderLoop (P : Params) : Nat → HookState → HookState × List Output
  | 0, s => (s, [])
  | n + 1, s =>
      if depsOf s = s.prevDeps then (s, [])
      else
        let r := effectsPass P s
        let r' := renderLoop P n r.1
        (r'.1, r.2 ++ r'.2)

/-- Render fuel; cascades stabilise in at most four passes. -/
def renderFuel : Nat := 8

/-- External events driving one hook instance: the imperative actions, and
the resolutions of the write mutations and receipt queries. -/
inductive Event where
  | evExecute
  | evReset
  | evApprovalWriteOk (h : Hash)
  | evApprovalWriteErr (e : Err)
  | evTransactionWriteOk (h : Hash)
  | evTransactionWriteErr (e : Err)
  | evApprovalConfirmOk
  | evApprovalConfirmErr (e : Err)
  | evTransactionConfirmOk
  | evTransactionConfirmErr (e : Err)
  deriving DecidableEq, Repr

/-- When an event can occur: a write resolves only while its mutation is
in flight; a receipt resolves only while its query is fetching. -/
def enabledEvent (s : HookState) : Event → Bool
  | Event.evExecute => true
  | Event.evReset => true
  | Event.evApprovalWriteOk _ => s.approvalClient.pending
  | Event.evApprovalWriteErr _ => s.approvalClient.pending
  | Event.evTransactionWriteOk _ => s.transactionClient.pending
  | Event.evTransactionWriteErr _ => s.transactionClient.pending
  | Event.evApprovalConfirmOk => isApprovingConfirming s
  | Event.evApprovalConfirmErr _ => isApprovingConfirming s
  | Event.evTransactionConfirmOk => isTransactionConfirming s
  | Event.evTransactionConfirmErr _ => isTransactionConfirming s

/-- Primitive update of an event, before the re-render.  A failing write
also runs the per-call `onError` callback passed to `writeContract`
(lines 210–216 / 245–251), which updates state and invokes the error
callback immediately. -/
def applyEvent (s : HookState) : Event → HookState × List Output
  | Event.evApprovalWriteOk h =>
      ({ s with approvalClient := { pending := false, data := some h, error := none } }, [])
  | Event.evApprovalWriteErr e =>
      ({ s with approvalClient := { pending := false, data := none, error := some e }
              , approvalError := some e, isApproving := false },
       [Output.cbApprovalError e])
  | Event.evTransactionWriteOk h =>
      ({ s with transactionClient := { pending := false, data := some h, error := none } }, [])
  | Event.evTransactionWriteErr e =>
      ({ s with transactionClient := { pending := false, data := none, error := some e }
              , transactionError := some e, isTransacting := false },
       [Output.cbTransactionError e])
  | Event.evApprovalConfirmOk =>
      ({ s with approvalReceipt := { success := true, error := none } }, [])
  | Event.evApprovalConfirmErr e =>
      ({ s with approvalReceipt := { success := false, error := some e } }, [])
  | Event.evTransactionConfirmOk =>
      ({ s with transactionReceipt := { success := true, error := none } }, [])
  | Event.evTransactionConfirmErr e =>
      ({ s with transactionReceipt := { success := false, error := some e } }, [])
  | Event.evExecute => (s, [])
  | Event.evReset => (s, [])

/-- One step of the system: apply an enabled event, then re-render. -/
def step (P : Params) (s : HookState) (ev : Event) : HookState × List Output :=
  if enabledEvent s ev then
    match ev with
    | Event.evExecute =>
        let r := execute P s
        let r' := renderLoop P renderFuel r.1
        (r'.1, r.2 ++ r'.2)
    | Event.evReset =>
        renderLoop P renderFuel (reset s)
    | ev =>
        let r := applyEvent s ev
        let r' := renderLoop P renderFuel r.1
        (r'.1, r.2 ++ r'.2)
  else (s, [])

/-- Run a sequence of events, accumulating outputs. -/
def run (P : Params) (s : HookState) : List Event → HookState × List Output
  | [] => (s, [])
  | ev :: evs =>
      let r := step P s ev
      let r' := run P r.1 evs
      (r'.1, r.2 ++ r'.2)

/-- Dependency snapshot of the freshly mounted hook. -/
def initDeps : Deps :=
  { d1 := none, d2 := none, d3 := none, d4 := none
    d5 := none, d6 := none, d7 := (false, none), d8 := (false, none) }

/-- The hook's state after mount (all `useState` initialisers; the mount
render's effects all have falsy guards and do nothing). -/
def HookState.init : HookState :=
  { approvalHash := none
    transactionHash := none
    isApproving := false
    isTransacting := false
    approvalError := none
    transactionError := none
    approvalClient := WriteClient.init
    transactionClient := WriteClient.init
    approvalReceipt := Receipt.init
    transactionReceipt := Receipt.init
    prevDeps := initDeps }

/-! ## The read delegate (`src/read.ts`) -/

/-- Parameters of `useUniversalReadContract`
(`UseUniversalReadContractParams`); `none` means the caller omitted the
optional parameter. -/
structure ReadParams where
  functionName : String
  args : Option (List ArgVal)
  address : Option Addr
  abi : Option AbiT
  enabled : Option Bool
  watch : Option Bool
  chainId : Option Nat
  deriving DecidableEq, Repr

/-- The request object the hook passes to wagmi's `useReadContract`
(`enabled` sits inside the nested `query` object in the source). -/
structure ReadRequest where
  address : Addr
  abi : AbiT
  functionName : String
  args : List ArgVal
  queryEnabled : Bool
  watch : Bool
  chainId : Option Nat
  deriving DecidableEq, Repr

/-- Result shape of wagmi's `useReadContract`, restricted to the fields
the hook returns.  `refetchToken` stands in for the `refetch` function
reference, which is forwarded without being called or wrapped. -/
structure ReadResult (α : Type) where
  data : Option α
  isLoading : Bool
  isError : Bool
  error : Option Err
  isSuccess : Bool
  isFetching : Bool
  refetchToken : Nat
  deriving DecidableEq, Repr

/-- Modelled from the spec: `DEFAULT_CONTRACT_ADDRESS` is imported from
the app's `@/config/contracts` module, which is not under `src/`; its
value is an opaque configured constant. -/
def DEFAULT_CONTRACT_ADDRESS : Addr := "0xDEFAULT_CONTRACT"

/-- Modelled from the spec: `DEFAULT_CONTRACT_ABI` is imported from the
app's `@/config/contracts` module, which is not under `src/`. -/
def DEFAULT_CONTRACT_ABI : AbiT := "DEFAULT_ABI"

/-- `useUniversalReadContract` (`src/read.ts`, lines 29–60): substitute
defaults for omitted parameters, call wagmi's `useReadContract` (passed
here as a function, since it is an external collaborator), and rebuild
the result record field by field as the source's return statement does. -/
def useUniversalReadContract {α : Type} (useReadContract : ReadRequest → ReadResult α)
    (p : ReadParams) : ReadResult α :=
  let r := useReadContract
    { address := p.address.getD DEFAULT_CONTRACT_ADDRESS
      abi := p.abi.getD DEFAULT_CONTRACT_ABI
      functionName := p.functionName
      args := p.args.getD []
      queryEnabled := p.enabled.getD true
      watch := p.watch.getD false
      chainId := p.chainId }
  { data := r.data
    isLoading := r.isLoading
    isError := r.isError
    error := r.error
    isSuccess := r.isSuccess
    isFetching := r.isFetching
    refetchToken := r.refetchToken }

/-- Modelled from the spec's words for the refinement claim: the read
hook "forwards its parameters to the underlying read-query primitive with
defaults substituted for omitted ones (args = [], address =
DEFAULT_CONTRACT_ADDRESS, abi = DEFAULT_CONTRACT_ABI, enabled = true,
watch = false, chainId passed through), and returns the primitive's
result fields unchanged; it performs no other computation". -/
def useUniversalReadContractSpec {α : Type} (useReadContract : ReadRequest → ReadResult α)
    (p : ReadParams) : ReadResult α :=
  useReadContract
    { address := p.address.getD DEFAULT_CONTRACT_ADDRESS
      abi := p.abi.getD DEFAULT_CONTRACT_ABI
      functionName := p.functionName
      args := p.args.getD []
      queryEnabled := p.enabled.getD true
      watch := p.watch.getD false
      chainId := p.chainId }

/-! ## Output observations -/

/-- `true` on outputs that submit the dependent (main) transaction. -/
def isTxWrite : Output → Bool
  | Output.writeTransactionCall _ _ _ _ => true
  | _ => false

/-- Number of dependent-transaction submissions in an output trace. -/
def countTx (l : List Output) : Nat := l.countP isTxWrite

/-! ## Invariants -/

/-- The dependency snapshot is in sync with the rendered values: the state
reached at the end of every `step` (the render loop exits when this
holds). -/
def Sync (s : HookState) : Prop := depsOf s = s.prevDeps

/-- State after the approval step has failed in the current execution:
the receipt never succeeded, no approval write is in flight, and any
recorded mutation data or hash belongs to a confirmation that errored.
From such a state the approval can never be observed successful again
without a new `execute`. -/
def FailInv (s : HookState) : Prop :=
  s.approvalReceipt.success = false ∧
  s.approvalClient.pending = false ∧
  (s.approvalClient.data.isSome → s.approvalReceipt.error.isSome) ∧
  (s.approvalHash.isSome → s.approvalReceipt.error.isSome)

/-- Invariant of an execution of the approval flow before the dependent
transaction has been submitted (holds right after `execute`): deps are in
sync, an in-flight approval write implies a freshly reset approval side,
an in-flight transaction write implies a freshly reset transaction side,
and an absent transaction hash implies an unresolved transaction receipt. -/
def Inv0 (s : HookState) : Prop :=
  Sync s ∧
  (s.approvalClient.pending = true →
     s.approvalClient.data = none ∧ s.approvalClient.error = none ∧
     s.approvalHash = none ∧ s.approvalReceipt = Receipt.init) ∧
  (s.transactionClient.pending = true →
     s.transactionClient.data = none ∧ s.transactionClient.error = none ∧
     s.transactionHash = none) ∧
  (s.transactionHash = none → s.transactionReceipt = Receipt.init)

/-- State from which effect 7 can never fire again without a new
`execute`: deps in sync, no approval write in flight, and the approval
receipt resolved (or no hash to wait on), so `[isApprovalSuccess,
approvalHash]` is frozen.  Entered when the dependent transaction is
submitted. -/
def Frozen (s : HookState) : Prop :=
  Sync s ∧
  s.approvalClient.pending = false ∧
  (s.approvalHash.isSome → s.approvalReceipt.success = true ∨ s.approvalReceipt.error.isSome) ∧
  (s.transactionClient.pending = true →
     s.transactionClient.data = none ∧ s.transactionClient.error = none ∧
     s.transactionHash = none) ∧
  (s.transactionHash = none → s.transactionReceipt = Receipt.init)

instance (s : HookState) : Decidable (Sync s) := by unfold Sync; infer_instance

instance (s : HookState) : Decidable (FailInv s) := by unfold FailInv; infer_instance

instance (s : HookState) : Decidable (Inv0 s) := by unfold Inv0; infer_instance

instance (s : HookState) : Decidable (Frozen s) := by unfold Frozen; infer_instance

/-! ## Concrete instances used by the witnesses -/

/-- A concrete approval configuration. -/
def cfgW : ApprovalConfig :=
  { tokenAddress := "0xUSDT", tokenAbi := "erc20", spenderAddress := "0xDAPP"
    amount := Amount.big 100, decimals := none }

/-- A concrete dependent-transaction configuration. -/
def txCfgW : TransactionConfig :=
  { contractAddress := "0xDAPP", contractAbi := "dappAbi"
    functionName := "invest", args := some [ArgVal.amt 5] }

/-- Hook parameters with an approval step. -/
def PW : Params := { approvalConfig := some cfgW, transactionConfig := txCfgW }

/-- Hook parameters without an approval step. -/
def PN : Params := { approvalConfig := none, transactionConfig := txCfgW }

/-- State mid-approval: after `execute` and the approval write resolving. -/
def sW : HookState :=
  (run PW HookState.init [Event.evExecute, Event.evApprovalWriteOk "0xa1"]).1

/-- State with an in-flight approval write: right after `execute`. -/
def sPendW : HookState := (run PW HookState.init [Event.evExecute]).1

/-- The hook state just after `execute` ran with an `approvalConfig`:
everything cleared and the approval write in flight. -/
def postExecuteApproval : HookState :=
  { approvalHash := none
    transactionHash := none
    isApproving := true
    isTransacting := false
    approvalError := none
    transactionError := none
    approvalClient := { pending := true, data := none, error := none }
    transactionClient := WriteClient.init
    approvalReceipt := Receipt.init
    transactionReceipt := Receipt.init
    prevDeps := initDeps }

/-- A concrete read-query primitive standing in for wagmi's
`useReadContract` in the witnesses. -/
def readPrimW : ReadRequest → ReadResult Nat := fun req =>
  { data := some req.args.length, isLoading := false, isError := false
    error := none, isSuccess := true, isFetching := false, refetchToken := 7 }

/-- Concrete read-hook parameters with every optional field omitted but
`chainId`. -/
def readParamsW : ReadParams :=
  { functionName := "balanceOf", args := none, address := none, abi := none
    enabled := none, watch := none, chainId := some 1 }

/-! ## Helper lemmas: the individual effects -/

lemma eff1_quiet {s : HookState} (t : HookState) (h : s.approvalClient.data = none) :
    eff1 s t = t := by
  unfold eff1; rw [h]; split <;> rfl

lemma eff1_nodep {s : HookState} (t : HookState) (h : (depsOf s).d1 = s.prevDeps.d1) :
    eff1 s t = t := by
  unfold eff1; rw [if_neg (not_not_intro h)]

lemma eff1_fire {s : HookState} (t : HookState) {h : Hash}
    (hd : (depsOf s).d1 ≠ s.prevDeps.d1) (hc : s.approvalClient.data = some h) :
    eff1 s t = { t with approvalHash := some h } := by
  unfold eff1; rw [if_pos hd, hc]

lemma eff1_cases (s t : HookState) :
    eff1 s t = t ∨
    ∃ h, s.approvalClient.data = some h ∧ eff1 s t = { t with approvalHash := some h } := by
  unfold eff1
  by_cases hd : (depsOf s).d1 ≠ s.prevDeps.d1
  · rw [if_pos hd]
    cases hc : s.approvalClient.data with
    | none => exact Or.inl rfl
    | some h => exact Or.inr ⟨h, rfl, rfl⟩
  · rw [if_neg hd]; exact Or.inl rfl

lemma eff2_quiet {s : HookState} (t : HookState) (h : s.transactionClient.data = none) :
    eff2 s t = t := by
  unfold eff2; rw [h]; split <;> rfl

lemma eff2_nodep {s : HookState} (t : HookState) (h : (depsOf s).d2 = s.prevDeps.d2) :
    eff2 s t = t := by
  unfold eff2; rw [if_neg (not_not_intro h)]

lemma eff2_fire {s : HookState} (t : HookState) {h : Hash}
    (hd : (depsOf s).d2 ≠ s.prevDeps.d2) (hc : s.transactionClient.data = some h) :
    eff2 s t = { t with transactionHash := some h } := by
  unfold eff2; rw [if_pos hd, hc]

lemma eff2_cases (s t : HookState) :
    eff2 s t = t ∨
    ∃ h, s.transactionClient.data = some h ∧ eff2 s t = { t with transactionHash := some h } := by
  unfold eff2
  by_cases hd : (depsOf s).d2 ≠ s.prevDeps.d2
  · rw [if_pos hd]
    cases hc : s.transactionClient.data with
    | none => exact Or.inl rfl
    | some h => exact Or.inr ⟨h, rfl, rfl⟩
  · rw [if_neg hd]; exact Or.inl rfl

lemma eff3_quiet {s : HookState} (t : HookState) (h : s.approvalClient.error = none) :
    eff3 s t = (t, []) := by
  unfold eff3; rw [h]; split <;> rfl

lemma eff3_nodep {s : HookState} (t : HookState) (h : (depsOf s).d3 = s.prevDeps.d3) :
    eff3 s t = (t, []) := by
  unfold eff3; rw [if_neg (not_not_intro h)]

lemma eff3_fire {s : HookState} (t : HookState) {e : Err}
    (hd : (depsOf s).d3 ≠ s.prevDeps.d3) (hc : s.approvalClient.error = some e) :
    eff3 s t = ({ t with approvalError := some e, isApproving := false },
                [Output.cbApprovalError e]) := by
  unfold eff3; rw [if_pos hd, hc]

lemma eff3_cases (s t : HookState) :
    eff3 s t = (t, []) ∨
    ∃ e, s.approvalClient.error = some e ∧
      eff3 s t = ({ t with approvalError := some e, isApproving := false },
                  [Output.cbApprovalError e]) := by
  unfold eff3
  by_cases hd : (depsOf s).d3 ≠ s.prevDeps.d3
  · rw [if_pos hd]
    cases hc : s.approvalClient.error with
    | none => exact Or.inl rfl
    | some e => exact Or.inr ⟨e, rfl, rfl⟩
  · rw [if_neg hd]; exact Or.inl rfl

lemma eff4_quiet {s : HookState} (t : HookState) (h : s.transactionClient.error = none) :
    eff4 s t = (t, []) := by
  unfold eff4; rw [h]; split <;> rfl

lemma eff4_nodep {s : HookState} (t : HookState) (h : (depsOf s).d4 = s.prevDeps.d4) :
    eff4 s t = (t, []) := by
  unfold eff4; rw [if_neg (not_not_intro h)]

lemma eff4_fire {s : HookState} (t : HookState) {e : Err}
    (hd : (depsOf s).d4 ≠ s.prevDeps.d4) (hc : s.transactionClient.error = some e) :
    eff4 s t = ({ t with transactionError := some e, isTransacting := false },
                [Output.cbTransactionError e]) := by
  unfold eff4; rw [if_pos hd, hc]

lemma eff4_cases (s t : HookState) :
    eff4 s t = (t, []) ∨
    ∃ e, s.transactionClient.error = some e ∧
      eff4 s t = ({ t with transactionError := some e, isTransacting := false },
                  [Output.cbTransactionError e]) := by
  unfold eff4
  by_cases hd : (depsOf s).d4 ≠ s.prevDeps.d4
  · rw [if_pos hd]
    cases hc : s.transactionClient.error with
    | none => exact Or.inl rfl
    | some e => exact Or.inr ⟨e, rfl, rfl⟩
  · rw [if_neg hd]; exact Or.inl rfl

lemma eff5_quiet {s : HookState} (t : HookState) (h : approvalConfirmError s = none) :
    eff5 s t = (t, []) := by
  unfold eff5; rw [h]; split <;> rfl

lemma eff5_nodep {s : HookState} (t : HookState) (h : (depsOf s).d5 = s.prevDeps.d5) :
    eff5 s t = (t, []) := by
  unfold eff5; rw [if_neg (not_not_intro h)]

lemma eff5_fire {s : HookState} (t : HookState) {e : Err}
    (hd : (depsOf s).d5 ≠ s.prevDeps.d5) (hc : approvalConfirmError s = some e) :
    eff5 s t = ({ t with approvalError := some e, isApproving := false },
                [Output.cbApprovalError e]) := by
  unfold eff5; rw [if_pos hd, hc]

lemma eff5_cases (s t : HookState) :
    eff5 s t = (t, []) ∨
    ∃ e, approvalConfirmError s = some e ∧
      eff5 s t = ({ t with approvalError := some e, isApproving := false },
                  [Output.cbApprovalError e]) := by
  unfold eff5
  by_cases hd : (depsOf s).d5 ≠ s.prevDeps.d5
  · rw [if_pos hd]
    cases hc : approvalConfirmError s with
    | none => exact Or.inl rfl
    | some e => exact Or.inr ⟨e, rfl, rfl⟩
  · rw [if_neg hd]; exact Or.inl rfl

lemma eff6_quiet {s : HookState} (t : HookState) (h : transactionConfirmError s = none) :
    eff6 s t = (t, []) := by
  unfold eff6; rw [h]; split <;> rfl

lemma eff6_nodep {s : HookState} (t : HookState) (h : (depsOf s).d6 = s.prevDeps.d6) :
    eff6 s t = (t, []) := by
  unfold eff6; rw [if_neg (not_not_intro h)]

lemma eff6_fire {s : HookState} (t : HookState) {e : Err}
    (hd : (depsOf s).d6 ≠ s.prevDeps.d6) (hc : transactionConfirmError s = some e) :
    eff6 s t = ({ t with transactionError := some e, isTransacting := false },
                [Output.cbTransactionError e]) := by
  unfold eff6; rw [if_pos hd, hc]

lemma eff6_cases (s t : HookState) :
    eff6 s t = (t, []) ∨
    ∃ e, transactionConfirmError s = some e ∧
      eff6 s t = ({ t with transactionError := some e, isTransacting := false },
                  [Output.cbTransactionError e]) := by
  unfold eff6
  by_cases hd : (depsOf s).d6 ≠ s.prevDeps.d6
  · rw [if_pos hd]
    cases hc : transactionConfirmError s with
    | none => exact Or.inl rfl
    | some e => exact Or.inr ⟨e, rfl, rfl⟩
  · rw [if_neg hd]; exact Or.inl rfl

lemma eff7_nodep {P : Params} {s : HookState} (t : HookState)
    (h : (depsOf s).d7 = s.prevDeps.d7) : eff7 P s t = (t, []) := by
  unfold eff7; rw [if_neg (not_not_intro h)]

lemma eff7_notSuccess {P : Params} {s : HookState} (t : HookState)
    (h : isApprovalSuccess s = false) : eff7 P s t = (t, []) := by
  unfold eff7
  split
  · cases hh : s.approvalHash with
    | none => rfl
    | some a => simp [h]
  · rfl

lemma eff7_fire {P : Params} {s : HookState} (t : HookState) {h : Hash}
    (hd : (depsOf s).d7 ≠ s.prevDeps.d7) (hh : s.approvalHash = some h)
    (hg : isApprovalSuccess s = true) (ht : s.isTransacting = false)
    (hx : s.transactionHash = none) :
    eff7 P s t =
      ({ t with isApproving := false, isTransacting := true, transactionError := none
              , transactionClient := { pending := true, data := none, error := none } },
       [Output.cbApprovalSuccess h,
        Output.writeTransactionCall P.transactionConfig.contractAddress
          P.transactionConfig.contractAbi P.transactionConfig.functionName
          (P.transactionConfig.args.getD [])]) := by
  unfold eff7
  rw [if_pos hd, hh]
  simp [hg, ht, hx, executeTransaction]

lemma eff7_cases (P : Params) (s t : HookState) :
    eff7 P s t = (t, []) ∨
    ∃ h, s.approvalHash = some h ∧ isApprovalSuccess s = true ∧
      s.isTransacting = false ∧ s.transactionHash = none ∧
      eff7 P s t =
        ({ t with isApproving := false, isTransacting := true, transactionError := none
                , transactionClient := { pending := true, data := none, error := none } },
         [Output.cbApprovalSuccess h,
          Output.writeTransactionCall P.transactionConfig.contractAddress
            P.transactionConfig.contractAbi P.transactionConfig.functionName
            (P.transactionConfig.args.getD [])]) := by
  by_cases hd : (depsOf s).d7 ≠ s.prevDeps.d7
  · cases hh : s.approvalHash with
    | none => left; unfold eff7; rw [if_pos hd, hh]
    | some h =>
        by_cases hg : isApprovalSuccess s = true
        · by_cases ht : s.isTransacting = false
          · by_cases hx : s.transactionHash = none
            · exact Or.inr ⟨h, rfl, hg, ht, hx, eff7_fire t hd hh hg ht hx⟩
            · left; unfold eff7; rw [if_pos hd, hh]
              simp [Option.isNone_iff_eq_none, hx]
          · left; unfold eff7; rw [if_pos hd, hh]
            simp [Bool.not_eq_false] at ht
            simp [ht]
        · left; unfold eff7; rw [if_pos hd, hh]
          simp [Bool.not_eq_true] at hg
          simp [hg]
  · exact Or.inl (eff7_nodep t (not_not.mp hd))

lemma eff8_nodep {s : HookState} (t : HookState) (h : (depsOf s).d8 = s.prevDeps.d8) :
    eff8 s t = (t, []) := by
  unfold eff8; rw [if_neg (not_not_intro h)]

lemma eff8_notSuccess {s : HookState} (t : HookState)
    (h : isTransactionSuccess s = false) : eff8 s t = (t, []) := by
  unfold eff8
  split
  · cases hh : s.transactionHash with
    | none => rfl
    | some a => simp [h]
  · rfl

lemma eff8_fire {s : HookState} (t : HookState) {h : Hash}
    (hd : (depsOf s).d8 ≠ s.prevDeps.d8) (hh : s.transactionHash = some h)
    (hg : isTransactionSuccess s = true) :
    eff8 s t = ({ t with isTransacting := false },
                [Output.cbTransactionSuccess h, Output.cbFinalSuccess]) := by
  unfold eff8; rw [if_pos hd, hh]; simp [hg]

lemma eff8_cases (s t : HookState) :
    eff8 s t = (t, []) ∨
    ∃ h, s.transactionHash = some h ∧ isTransactionSuccess s = true ∧
      eff8 s t = ({ t with isTransacting := false },
                  [Output.cbTransactionSuccess h, Output.cbFinalSuccess]) := by
  by_cases hd : (depsOf s).d8 ≠ s.prevDeps.d8
  · cases hh : s.transactionHash with
    | none => left; unfold eff8; rw [if_pos hd, hh]
    | some h =>
        by_cases hg : isTransactionSuccess s = true
        · exact Or.inr ⟨h, rfl, hg, eff8_fire t hd hh hg⟩
        · left; unfold eff8; rw [if_pos hd, hh]
          simp [Bool.not_eq_true] at hg
          simp [hg]
  · exact Or.inl (eff8_nodep t (not_not.mp hd))

/-! ## Helper lemmas: counting transaction submissions -/

@[simp] lemma countTx_nil : countTx [] = 0 := rfl

lemma countTx_append (a b : List Output) : countTx (a ++ b) = countTx a + countTx b :=
  List.countP_append _ _ _

lemma countTx_pos_iff (l : List Output) :
    1 ≤ countTx l ↔ ∃ o ∈ l, isTxWrite o = true := by
  unfold countTx
  exact List.countP_pos_iff

/-! ## Helper lemmas: the render loop -/

lemma renderLoop_stop {P : Params} {s : HookState} (n : Nat)
    (h : depsOf s = s.prevDeps) : renderLoop P (n + 1) s = (s, []) := by
  simp [renderLoop, h]

lemma renderLoop_go {P : Params} {s : HookState} (n : Nat)
    (h : ¬depsOf s = s.prevDeps) :
    renderLoop P (n + 1) s =
      ((renderLoop P n (effectsPass P s).1).1,
       (effectsPass P s).2 ++ (renderLoop P n (effectsPass P s).1).2) := by
  simp [renderLoop, h]

lemma hookState_eta_prevDeps (s : HookState) :
    ({ s with prevDeps := s.prevDeps } : HookState) = s := rfl

lemma depsOf_set_prevDeps (s : HookState) (d : Deps) :
    depsOf { s with prevDeps := d } = depsOf s := rfl

/-- On a state whose live fields are all quiet (fresh clients and no
hashes), a render pass does nothing but refresh the dependency snapshot. -/
lemma effectsPass_quiet {P : Params} {s : HookState}
    (h1 : s.approvalClient.data = none) (h2 : s.transactionClient.data = none)
    (h3 : s.approvalClient.error = none) (h4 : s.transactionClient.error = none)
    (h5 : s.approvalHash = none) (h6 : s.transactionHash = none) :
    effectsPass P s = ({ s with prevDeps := depsOf s }, []) := by
  have hs : isApprovalSuccess s = false := by simp [isApprovalSuccess, h5]
  have hx : isTransactionSuccess s = false := by simp [isTransactionSuccess, h6]
  have h5' : approvalConfirmError s = none := by simp [approvalConfirmError, h5]
  have h6' : transactionConfirmError s = none := by simp [transactionConfirmError, h6]
  unfold effectsPass
  simp only [eff1_quiet, eff2_quiet, eff3_quiet, eff4_quiet, eff5_quiet, eff6_quiet,
    eff7_notSuccess, eff8_notSuccess, h1, h2, h3, h4, h5', h6', hs, hx,
    List.append_nil, List.nil_append]

/-- A quiet state's render loop terminates at once with no outputs. -/
lemma renderLoop_quiet {P : Params} {s : HookState} (n : Nat)
    (h1 : s.approvalClient.data = none) (h2 : s.transactionClient.data = none)
    (h3 : s.approvalClient.error = none) (h4 : s.transactionClient.error = none)
    (h5 : s.approvalHash = none) (h6 : s.transactionHash = none) :
    renderLoop P (n + 2) s = ({ s with prevDeps := depsOf s }, []) := by
  by_cases hc : depsOf s = s.prevDeps
  · rw [renderLoop_stop (n + 1) hc, hc, hookState_eta_prevDeps]
  · rw [renderLoop_go (n + 1) hc, effectsPass_quiet h1 h2 h3 h4 h5 h6]
    rw [renderLoop_stop n (by rw [depsOf_set_prevDeps])]
    rfl

/-- `renderLoop_quiet` for any fuel of at least 2. -/
lemma renderLoop_quiet' {P : Params} {s : HookState} {n : Nat} (hn : 2 ≤ n)
    (h1 : s.approvalClient.data = none) (h2 : s.transactionClient.data = none)
    (h3 : s.approvalClient.error = none) (h4 : s.transactionClient.error = none)
    (h5 : s.approvalHash = none) (h6 : s.transactionHash = none) :
    renderLoop P n s = ({ s with prevDeps := depsOf s }, []) := by
  obtain ⟨m, rfl⟩ : ∃ m, n = m + 2 := ⟨n - 2, by omega⟩
  exact renderLoop_quiet m h1 h2 h3 h4 h5 h6

/-! ## Frame lemmas: fields each effect leaves untouched -/

@[simp] lemma eff1_transactionHash (s t : HookState) :
    (eff1 s t).transactionHash = t.transactionHash := by
  rcases eff1_cases s t with h | ⟨a, ha, h⟩ <;> rw [h]

@[simp] lemma eff1_isApproving (s t : HookState) :
    (eff1 s t).isApproving = t.isApproving := by
  rcases eff1_cases s t with h | ⟨a, ha, h⟩ <;> rw [h]

@[simp] lemma eff1_isTransacting (s t : HookState) :
    (eff1 s t).isTransacting = t.isTransacting := by
  rcases eff1_cases s t with h | ⟨a, ha, h⟩ <;> rw [h]

@[simp] lemma eff1_approvalError (s t : HookState) :
    (eff1 s t).approvalError = t.approvalError := by
  rcases eff1_cases s t with h | ⟨a, ha, h⟩ <;> rw [h]

@[simp] lemma eff1_transactionError (s t : HookState) :
    (eff1 s t).transactionError = t.transactionError := by
  rcases eff1_cases s t with h | ⟨a, ha, h⟩ <;> rw [h]

@[simp] lemma eff1_approvalClient (s t : HookState) :
    (eff1 s t).approvalClient = t.approvalClient := by
  rcases eff1_cases s t with h | ⟨a, ha, h⟩ <;> rw [h]

@[simp] lemma eff1_transactionClient (s t : HookState) :
    (eff1 s t).transactionClient = t.transactionClient := by
  rcases eff1_cases s t with h | ⟨a, ha, h⟩ <;> rw [h]

@[simp] lemma eff1_approvalReceipt (s t : HookState) :
    (eff1 s t).approvalReceipt = t.approvalReceipt := by
  rcases eff1_cases s t with h | ⟨a, ha, h⟩ <;> rw [h]

@[simp] lemma eff1_transactionReceipt (s t : HookState) :
    (eff1 s t).transactionReceipt = t.transactionReceipt := by
  rcases eff1_cases s t with h | ⟨a, ha, h⟩ <;> rw [h]

@[simp] lemma eff1_prevDeps (s t : HookState) :
    (eff1 s t).prevDeps = t.prevDeps := by
  rcases eff1_cases s t with h | ⟨a, ha, h⟩ <;> rw [h]

@[simp] lemma eff2_approvalHash (s t : HookState) :
    (eff2 s t).approvalHash = t.approvalHash := by
  rcases eff2_cases s t with h | ⟨a, ha, h⟩ <;> rw [h]

@[simp] lemma eff2_isApproving (s t : HookState) :
    (eff2 s t).isApproving = t.isApproving := by
  rcases eff2_cases s t with h | ⟨a, ha, h⟩ <;> rw [h]

@[simp] lemma eff2_isTransacting (s t : HookState) :
    (eff2 s t).isTransacting = t.isTransacting := by
  rcases eff2_cases s t with h | ⟨a, ha, h⟩ <;> rw [h]

@[simp] lemma eff2_approvalError (s t : HookState) :
    (eff2 s t).approvalError = t.approvalError := by
  rcases eff2_cases s t with h | ⟨a, ha, h⟩ <;> rw [h]

@[simp] lemma eff2_transactionError (s t : HookState) :
    (eff2 s t).transactionError = t.transactionError := by
  rcases eff2_cases s t with h | ⟨a, ha, h⟩ <;> rw [h]

@[simp] lemma eff2_approvalClient (s t : HookState) :
    (eff2 s t).approvalClient = t.approvalClient := by
  rcases eff2_cases s t with h | ⟨a, ha, h⟩ <;> rw [h]

@[simp] lemma eff2_transactionClient (s t : HookState) :
    (eff2 s t).transactionClient = t.transactionClient := by
  rcases eff2_cases s t with h | ⟨a, ha, h⟩ <;> rw [h]

@[simp] lemma eff2_approvalReceipt (s t : HookState) :
    (eff2 s t).approvalReceipt = t.approvalReceipt := by
  rcases eff2_cases s t with h | ⟨a, ha, h⟩ <;> rw [h]

@[simp] lemma eff2_transactionReceipt (s t : HookState) :
    (eff2 s t).transactionReceipt = t.transactionReceipt := by
  rcases eff2_cases s t with h | ⟨a, ha, h⟩ <;> rw [h]

@[simp] lemma eff2_prevDeps (s t : HookState) :
    (eff2 s t).prevDeps = t.prevDeps := by
  rcases eff2_cases s t with h | ⟨a, ha, h⟩ <;> rw [h]

@[simp] lemma eff3_approvalHash (s t : HookState) :
    (eff3 s t).1.approvalHash = t.approvalHash := by
  rcases eff3_cases s t with h | ⟨e, he, h⟩ <;> rw [h]

@[simp] lemma eff3_transactionHash (s t : HookState) :
    (eff3 s t).1.transactionHash = t.transactionHash := by
  rcases eff3_cases s t with h | ⟨e, he, h⟩ <;> rw [h]

@[simp] lemma eff3_isTransacting (s t : HookState) :
    (eff3 s t).1.isTransacting = t.isTransacting := by
  rcases eff3_cases s t with h | ⟨e, he, h⟩ <;> rw [h]

@[simp] lemma eff3_transactionError (s t : HookState) :
    (eff3 s t).1.transactionError = t.transactionError := by
  rcases eff3_cases s t with h | ⟨e, he, h⟩ <;> rw [h]

@[simp] lemma eff3_approvalClient (s t : HookState) :
    (eff3 s t).1.approvalClient = t.approvalClient := by
  rcases eff3_cases s t with h | ⟨e, he, h⟩ <;> rw [h]

@[simp] lemma eff3_transactionClient (s t : HookState) :
    (eff3 s t).1.transactionClient = t.transactionClient := by
  rcases eff3_cases s t with h | ⟨e, he, h⟩ <;> rw [h]

@[simp] lemma eff3_approvalReceipt (s t : HookState) :
    (eff3 s t).1.approvalReceipt = t.approvalReceipt := by
  rcases eff3_cases s t with h | ⟨e, he, h⟩ <;> rw [h]

@[simp] lemma eff3_transactionReceipt (s t : HookState) :
    (eff3 s t).1.transactionReceipt = t.transactionReceipt := by
  rcases eff3_cases s t with h | ⟨e, he, h⟩ <;> rw [h]

@[simp] lemma eff3_prevDeps (s t : HookState) :
    (eff3 s t).1.prevDeps = t.prevDeps := by
  rcases eff3_cases s t with h | ⟨e, he, h⟩ <;> rw [h]

@[simp] lemma eff4_approvalHash (s t : HookState) :
    (eff4 s t).1.approvalHash = t.approvalHash := by
  rcases eff4_cases s t with h | ⟨e, he, h⟩ <;> rw [h]

@[simp] lemma eff4_transactionHash (s t : HookState) :
    (eff4 s t).1.transactionHash = t.transactionHash := by
  rcases eff4_cases s t with h | ⟨e, he, h⟩ <;> rw [h]

@[simp] lemma eff4_isApproving (s t : HookState) :
    (eff4 s t).1.isApproving = t.isApproving := by
  rcases eff4_cases s t with h | ⟨e, he, h⟩ <;> rw [h]

@[simp] lemma eff4_approvalError (s t : HookState) :
    (eff4 s t).1.approvalError = t.approvalError := by
  rcases eff4_cases s t with h | ⟨e, he, h⟩ <;> rw [h]

@[simp] lemma eff4_approvalClient (s t : HookState) :
    (eff4 s t).1.approvalClient = t.approvalClient := by
  rcases eff4_cases s t with h | ⟨e, he, h⟩ <;> rw [h]

@[simp] lemma eff4_transactionClient (s t : HookState) :
    (eff4 s t).1.transactionClient = t.transactionClient := by
  rcases eff4_cases s t with h | ⟨e, he, h⟩ <;> rw [h]

@[simp] lemma eff4_approvalReceipt (s t : HookState) :
    (eff4 s t).1.approvalReceipt = t.approvalReceipt := by
  rcases eff4_cases s t with h | ⟨e, he, h⟩ <;> rw [h]

@[simp] lemma eff4_transactionReceipt (s t : HookState) :
    (eff4 s t).1.transactionReceipt = t.transactionReceipt := by
  rcases eff4_cases s t with h | ⟨e, he, h⟩ <;> rw [h]

@[simp] lemma eff4_prevDeps (s t : HookState) :
    (eff4 s t).1.prevDeps = t.prevDeps := by
  rcases eff4_cases s t with h | ⟨e, he, h⟩ <;> rw [h]

@[simp] lemma eff5_approvalHash (s t : HookState) :
    (eff5 s t).1.approvalHash = t.approvalHash := by
  rcases eff5_cases s t with h | ⟨e, he, h⟩ <;> rw [h]

@[simp] lemma eff5_transactionHash (s t : HookState) :
    (eff5 s t).1.transactionHash = t.transactionHash := by
  rcases eff5_cases s t with h | ⟨e, he, h⟩ <;> rw [h]

@[simp] lemma eff5_isTransacting (s t : HookState) :
    (eff5 s t).1.isTransacting = t.isTransacting := by
  rcases eff5_cases s t with h | ⟨e, he, h⟩ <;> rw [h]

@[simp] lemma eff5_transactionError (s t : HookState) :
    (eff5 s t).1.transactionError = t.transactionError := by
  rcases eff5_cases s t with h | ⟨e, he, h⟩ <;> rw [h]

@[simp] lemma eff5_approvalClient (s t : HookState) :
    (eff5 s t).1.approvalClient = t.approvalClient := by
  rcases eff5_cases s t with h | ⟨e, he, h⟩ <;> rw [h]

@[simp] lemma eff5_transactionClient (s t : HookState) :
    (eff5 s t).1.transactionClient = t.transactionClient := by
  rcases eff5_cases s t with h | ⟨e, he, h⟩ <;> rw [h]

@[simp] lemma eff5_approvalReceipt (s t : HookState) :
    (eff5 s t).1.approvalReceipt = t.approvalReceipt := by
  rcases eff5_cases s t with h | ⟨e, he, h⟩ <;> rw [h]

@[simp] lemma eff5_transactionReceipt (s t : HookState) :
    (eff5 s t).1.transactionReceipt = t.transactionReceipt := by
  rcases eff5_cases s t with h | ⟨e, he, h⟩ <;> rw [h]

@[simp] lemma eff5_prevDeps (s t : HookState) :
    (eff5 s t).1.prevDeps = t.prevDeps := by
  rcases eff5_cases s t with h | ⟨e, he, h⟩ <;> rw [h]

@[simp] lemma eff6_approvalHash (s t : HookState) :
    (eff6 s t).1.approvalHash = t.approvalHash := by
  rcases eff6_cases s t with h | ⟨e, he, h⟩ <;> rw [h]

@[simp] lemma eff6_transactionHash (s t : HookState) :
    (eff6 s t).1.transactionHash = t.transactionHash := by
  rcases eff6_cases s t with h | ⟨e, he, h⟩ <;> rw [h]

@[simp] lemma eff6_isApproving (s t : HookState) :
    (eff6 s t).1.isApproving = t.isApproving := by
  rcases eff6_cases s t with h | ⟨e, he, h⟩ <;> rw [h]

@[simp] lemma eff6_approvalError (s t : HookState) :
    (eff6 s t).1.approvalError = t.approvalError := by
  rcases eff6_cases s t with h | ⟨e, he, h⟩ <;> rw [h]

@[simp] lemma eff6_approvalClient (s t : HookState) :
    (eff6 s t).1.approvalClient = t.approvalClient := by
  rcases eff6_cases s t with h | ⟨e, he, h⟩ <;> rw [h]

@[simp] lemma eff6_transactionClient (s t : HookState) :
    (eff6 s t).1.transactionClient = t.transactionClient := by
  rcases eff6_cases s t with h | ⟨e, he, h⟩ <;> rw [h]

@[simp] lemma eff6_approvalReceipt (s t : HookState) :
    (eff6 s t).1.approvalReceipt = t.approvalReceipt := by
  rcases eff6_cases s t with h | ⟨e, he, h⟩ <;> rw [h]

@[simp] lemma eff6_transactionReceipt (s t : HookState) :
    (eff6 s t).1.transactionReceipt = t.transactionReceipt := by
  rcases eff6_cases s t with h | ⟨e, he, h⟩ <;> rw [h]

@[simp] lemma eff6_prevDeps (s t : HookState) :
    (eff6 s t).1.prevDeps = t.prevDeps := by
  rcases eff6_cases s t with h | ⟨e, he, h⟩ <;> rw [h]

@[simp] lemma eff7_approvalHash (P : Params) (s t : HookState) :
    (eff7 P s t).1.approvalHash = t.approvalHash := by
  rcases eff7_cases P s t with h | ⟨a, h1, h2, h3, h4, h⟩ <;> rw [h]

@[simp] lemma eff7_transactionHash (P : Params) (s t : HookState) :
    (eff7 P s t).1.transactionHash = t.transactionHash := by
  rcases eff7_cases P s t with h | ⟨a, h1, h2, h3, h4, h⟩ <;> rw [h]

@[simp] lemma eff7_approvalError (P : Params) (s t : HookState) :
    (eff7 P s t).1.approvalError = t.approvalError := by
  rcases eff7_cases P s t with h | ⟨a, h1, h2, h3, h4, h⟩ <;> rw [h]

@[simp] lemma eff7_approvalClient (P : Params) (s t : HookState) :
    (eff7 P s t).1.approvalClient = t.approvalClient := by
  rcases eff7_cases P s t with h | ⟨a, h1, h2, h3, h4, h⟩ <;> rw [h]

@[simp] lemma eff7_approvalReceipt (P : Params) (s t : HookState) :
    (eff7 P s t).1.approvalReceipt = t.approvalReceipt := by
  rcases eff7_cases P s t with h | ⟨a, h1, h2, h3, h4, h⟩ <;> rw [h]

@[simp] lemma eff7_transactionReceipt (P : Params) (s t : HookState) :
    (eff7 P s t).1.transactionReceipt = t.transactionReceipt := by
  rcases eff7_cases P s t with h | ⟨a, h1, h2, h3, h4, h⟩ <;> rw [h]

@[simp] lemma eff7_prevDeps (P : Params) (s t : HookState) :
    (eff7 P s t).1.prevDeps = t.prevDeps := by
  rcases eff7_cases P s t with h | ⟨a, h1, h2, h3, h4, h⟩ <;> rw [h]

@[simp] lemma eff8_approvalHash (s t : HookState) :
    (eff8 s t).1.approvalHash = t.approvalHash := by
  rcases eff8_cases s t with h | ⟨a, h1, h2, h⟩ <;> rw [h]

@[simp] lemma eff8_transactionHash (s t : HookState) :
    (eff8 s t).1.transactionHash = t.transactionHash := by
  rcases eff8_cases s t with h | ⟨a, h1, h2, h⟩ <;> rw [h]

@[simp] lemma eff8_isApproving (s t : HookState) :
    (eff8 s t).1.isApproving = t.isApproving := by
  rcases eff8_cases s t with h | ⟨a, h1, h2, h⟩ <;> rw [h]

@[simp] lemma eff8_approvalError (s t : HookState) :
    (eff8 s t).1.approvalError = t.approvalError := by
  rcases eff8_cases s t with h | ⟨a, h1, h2, h⟩ <;> rw [h]

@[simp] lemma eff8_transactionError (s t : HookState) :
    (eff8 s t).1.transactionError = t.transactionError := by
  rcases eff8_cases s t with h | ⟨a, h1, h2, h⟩ <;> rw [h]

@[simp] lemma eff8_approvalClient (s t : HookState) :
    (eff8 s t).1.approvalClient = t.approvalClient := by
  rcases eff8_cases s t with h | ⟨a, h1, h2, h⟩ <;> rw [h]

@[simp] lemma eff8_transactionClient (s t : HookState) :
    (eff8 s t).1.transactionClient = t.transactionClient := by
  rcases eff8_cases s t with h | ⟨a, h1, h2, h⟩ <;> rw [h]

@[simp] lemma eff8_approvalReceipt (s t : HookState) :
    (eff8 s t).1.approvalReceipt = t.approvalReceipt := by
  rcases eff8_cases s t with h | ⟨a, h1, h2, h⟩ <;> rw [h]

@[simp] lemma eff8_transactionReceipt (s t : HookState) :
    (eff8 s t).1.transactionReceipt = t.transactionReceipt := by
  rcases eff8_cases s t with h | ⟨a, h1, h2, h⟩ <;> rw [h]

@[simp] lemma eff8_prevDeps (s t : HookState) :
    (eff8 s t).1.prevDeps = t.prevDeps := by
  rcases eff8_cases s t with h | ⟨a, h1, h2, h⟩ <;> rw [h]

/-! ## Transaction-submission counts of each effect -/

@[simp] lemma countTx_eff3 (s t : HookState) : countTx (eff3 s t).2 = 0 := by
  rcases eff3_cases s t with h | ⟨e, he, h⟩ <;> rw [h] <;> rfl

@[simp] lemma countTx_eff4 (s t : HookState) : countTx (eff4 s t).2 = 0 := by
  rcases eff4_cases s t with h | ⟨e, he, h⟩ <;> rw [h] <;> rfl

@[simp] lemma countTx_eff5 (s t : HookState) : countTx (eff5 s t).2 = 0 := by
  rcases eff5_cases s t with h | ⟨e, he, h⟩ <;> rw [h] <;> rfl

@[simp] lemma countTx_eff6 (s t : HookState) : countTx (eff6 s t).2 = 0 := by
  rcases eff6_cases s t with h | ⟨e, he, h⟩ <;> rw [h] <;> rfl

@[simp] lemma countTx_eff8 (s t : HookState) : countTx (eff8 s t).2 = 0 := by
  rcases eff8_cases s t with h | ⟨a, h1, h2, h⟩ <;> rw [h] <;> rfl

lemma countTx_eff7_le (P : Params) (s t : HookState) : countTx (eff7 P s t).2 ≤ 1 := by
  rcases eff7_cases P s t with h | ⟨a, h1, h2, h3, h4, h⟩ <;> rw [h] <;>
    simp [countTx, List.countP_cons, isTxWrite]

lemma countTx_eff7_pos (P : Params) (s t : HookState)
    (hp : 1 ≤ countTx (eff7 P s t).2) :
    isApprovalSuccess s = true ∧ s.isTransacting = false ∧ s.transactionHash = none := by
  rcases eff7_cases P s t with h | ⟨a, h1, h2, h3, h4, h⟩
  · rw [h] at hp; simp [countTx] at hp
  · exact ⟨h2, h3, h4⟩

/-! ## Evaluating one render pass -/

/-- Evaluate `effectsPass` from equations for the eight effects. -/
lemma effectsPass_eval {P : Params} {s t1 t2 t3 t4 t5 t6 t7 t8 : HookState}
    {o3 o4 o5 o6 o7 o8 : List Output}
    (E1 : eff1 s s = t1) (E2 : eff2 s t1 = t2) (E3 : eff3 s t2 = (t3, o3))
    (E4 : eff4 s t3 = (t4, o4)) (E5 : eff5 s t4 = (t5, o5)) (E6 : eff6 s t5 = (t6, o6))
    (E7 : eff7 P s t6 = (t7, o7)) (E8 : eff8 s t7 = (t8, o8)) :
    effectsPass P s = ({ t8 with prevDeps := depsOf s },
                       o3 ++ o4 ++ o5 ++ o6 ++ o7 ++ o8) := by
  simp only [effectsPass, E1, E2, E3, E4, E5, E6, E7, E8]

/-- Every render pass leaves the approval receipt untouched. -/
lemma effectsPass_approvalReceipt (P : Params) (s : HookState) :
    (effectsPass P s).1.approvalReceipt = s.approvalReceipt := by
  simp [effectsPass]

/-- Every render pass leaves the transaction receipt untouched. -/
lemma effectsPass_transactionReceipt (P : Params) (s : HookState) :
    (effectsPass P s).1.transactionReceipt = s.transactionReceipt := by
  simp [effectsPass]

/-- Every render pass leaves the approval write client untouched. -/
lemma effectsPass_approvalClient (P : Params) (s : HookState) :
    (effectsPass P s).1.approvalClient = s.approvalClient := by
  simp [effectsPass]

/-- A render pass never clears a recorded approval hash. -/
lemma effectsPass_hash_mono (P : Params) (s : HookState)
    (h : s.approvalHash.isSome = true) :
    (effectsPass P s).1.approvalHash.isSome = true := by
  have hh : (effectsPass P s).1.approvalHash = (eff1 s s).approvalHash := by
    simp [effectsPass]
  rw [hh]
  rcases eff1_cases s s with h1 | ⟨a, ha, h1⟩ <;> rw [h1] <;> simp [h]

/-- A render pass preserves an observed approval success. -/
lemma effectsPass_success_mono (P : Params) (s : HookState)
    (h : isApprovalSuccess s = true) :
    isApprovalSuccess (effectsPass P s).1 = true := by
  have hb : s.approvalHash.isSome = true ∧ s.approvalReceipt.success = true := by
    simpa [isApprovalSuccess] using h
  unfold isApprovalSuccess
  rw [effectsPass_approvalReceipt, effectsPass_hash_mono P s hb.1, hb.2]
  rfl

/-- A render pass submits the dependent transaction only when the approval
is observed successful at the render snapshot. -/
lemma effectsPass_countTx_zero (P : Params) (s : HookState)
    (h : isApprovalSuccess s = false) : countTx (effectsPass P s).2 = 0 := by
  have h7 : ∀ t, eff7 P s t = (t, []) := fun t => eff7_notSuccess t h
  simp only [effectsPass, h7, countTx_append, countTx_eff3, countTx_eff4,
    countTx_eff5, countTx_eff6, countTx_eff8]
  rfl

/-- A render pass submits the dependent transaction at most once. -/
lemma effectsPass_countTx_le (P : Params) (s : HookState) :
    countTx (effectsPass P s).2 ≤ 1 := by
  have h7 := countTx_eff7_le P s (eff6 s (eff5 s (eff4 s (eff3 s
    (eff2 s (eff1 s s))).1).1).1).1
  simp only [effectsPass, countTx_append, countTx_eff3, countTx_eff4,
    countTx_eff5, countTx_eff6, countTx_eff8]
  omega

/-- If a render pass submits the dependent transaction, the approval was
observed successful at the snapshot and no transaction was in flight or
recorded. -/
lemma effectsPass_countTx_pos (P : Params) (s : HookState)
    (h : 1 ≤ countTx (effectsPass P s).2) :
    isApprovalSuccess s = true ∧ s.isTransacting = false ∧ s.transactionHash = none := by
  by_cases hs : isApprovalSuccess s = true
  · refine ⟨hs, ?_⟩
    have hsum : 1 ≤ countTx (eff7 P s (eff6 s (eff5 s (eff4 s (eff3 s
        (eff2 s (eff1 s s))).1).1).1).1).2 := by
      simp only [effectsPass, countTx_append, countTx_eff3, countTx_eff4,
        countTx_eff5, countTx_eff6, countTx_eff8] at h
      omega
    exact ⟨(countTx_eff7_pos P s _ hsum).2.1, (countTx_eff7_pos P s _ hsum).2.2⟩
  · have hf : isApprovalSuccess s = false := by simpa using hs
    rw [effectsPass_countTx_zero P s hf] at h
    omega

/-! ## The render loop and approval success -/

/-- An observed approval success survives the whole render loop. -/
lemma renderLoop_success_mono (P : Params) :
    ∀ (n : Nat) (s : HookState), isApprovalSuccess s = true →
      isApprovalSuccess (renderLoop P n s).1 = true := by
  intro n
  induction n with
  | zero => intro s h; exact h
  | succ n ih =>
      intro s h
      by_cases hc : depsOf s = s.prevDeps
      · rw [renderLoop_stop n hc]; exact h
      · rw [renderLoop_go n hc]
        exact ih _ (effectsPass_success_mono P s h)

/-- If the render loop submits the dependent transaction, the final state
observes the approval as successful. -/
lemma renderLoop_countTx_pos (P : Params) :
    ∀ (n : Nat) (s : HookState), 1 ≤ countTx (renderLoop P n s).2 →
      isApprovalSuccess (renderLoop P n s).1 = true := by
  intro n
  induction n with
  | zero => intro s h; simp [renderLoop, countTx] at h
  | succ n ih =>
      intro s h
      by_cases hc : depsOf s = s.prevDeps
      · rw [renderLoop_stop n hc] at h; simp [countTx] at h
      · rw [renderLoop_go n hc] at h ⊢
        rw [countTx_append] at h
        by_cases h1 : 1 ≤ countTx (effectsPass P s).2
        · have hs := (effectsPass_countTx_pos P s h1).1
          exact renderLoop_success_mono P n _ (effectsPass_success_mono P s hs)
        · exact ih _ (by omega)

/-! ## Step unfolding -/

lemma step_execute_eq (P : Params) (s : HookState) :
    step P s Event.evExecute =
      ((renderLoop P renderFuel (execute P s).1).1,
       (execute P s).2 ++ (renderLoop P renderFuel (execute P s).1).2) := rfl

lemma step_reset_eq (P : Params) (s : HookState) :
    step P s Event.evReset = renderLoop P renderFuel (reset s) := rfl

lemma step_disabled {s : HookState} {ev : Event} (P : Params)
    (he : enabledEvent s ev = false) : step P s ev = (s, []) := by
  unfold step
  rw [if_neg (by simp [he])]

lemma step_enabled_eq {s : HookState} {ev : Event} (P : Params)
    (he : enabledEvent s ev = true)
    (hne : ev ≠ Event.evExecute) (hnr : ev ≠ Event.evReset) :
    step P s ev =
      ((renderLoop P renderFuel (applyEvent s ev).1).1,
       (applyEvent s ev).2 ++ (renderLoop P renderFuel (applyEvent s ev).1).2) := by
  cases ev <;> simp_all [step]

/-! ## The claims -/

/-- C4: in the returned `TransactionState`, `isComplete` is true iff the
dependent transaction is confirmed and, when an `approvalConfig` is
provided, the approval is also confirmed; with no `approvalConfig`,
`isComplete` equals `isTransactionSuccess`. -/
theorem isComplete_spec (P : Params) (s : HookState) :
    (isComplete P s = true ↔
      (isTransactionSuccess s = true ∧
       (P.approvalConfig.isSome = true → isApprovalSuccess s = true))) ∧
    (P.approvalConfig = none → isComplete P s = isTransactionSuccess s) := by
  constructor
  · cases h : P.approvalConfig with
    | none => simp [isComplete, h]
    | some cfg => simp [isComplete, h, Bool.and_eq_true, and_comm]
  · intro h; simp [isComplete, h]

/-- Witness for C4 at concrete inputs. -/
theorem isComplete_spec_witness :
    isComplete PN HookState.init = isTransactionSuccess HookState.init :=
  (isComplete_spec PN HookState.init).2 rfl

/-- C5: the overall `isLoading` flag is true iff at least one of the four
per-step loading flags is true. -/
theorem isLoading_spec (s : HookState) :
    isLoading s = true ↔
      (s.isApproving = true ∨ isApprovingConfirming s = true ∨
       s.isTransacting = true ∨ isTransactionConfirming s = true) := by
  simp only [isLoading, Bool.or_eq_true]
  tauto

/-- Witness for C5 at a concrete state. -/
theorem isLoading_spec_witness : isLoading sPendW = true :=
  (isLoading_spec sPendW).mpr (Or.inl (by decide))

/-- C6: for every `approvalConfig`, `executeApproval` submits a call to
`approvalConfig.tokenAddress` invoking the function named `"approve"` with
exactly the two arguments `[spenderAddress, approvalAmount]`. -/
theorem executeApproval_submits_approve_call (P : Params) (cfg : ApprovalConfig)
    (hP : P.approvalConfig = some cfg) (s : HookState) :
    (executeApproval P s).2 =
      [Output.writeApprovalCall cfg.tokenAddress cfg.tokenAbi "approve"
        [ArgVal.addr cfg.spenderAddress, ArgVal.amt (approvalAmount cfg)]] := by
  simp [executeApproval, hP]

/-- Witness for C6 at concrete inputs. -/
theorem executeApproval_submits_approve_call_witness :
    (executeApproval PW HookState.init).2 =
      [Output.writeApprovalCall "0xUSDT" "erc20" "approve"
        [ArgVal.addr "0xDAPP", ArgVal.amt 100]] :=
  executeApproval_submits_approve_call PW cfgW rfl HookState.init

/-- C10: the approval amount submitted on-chain is `amount` itself when it
is a bigint, and `parseUnits amount decimals` when it is a string, with
`decimals` defaulting to 18; `decimals` has no effect on a bigint amount. -/
theorem approvalAmount_spec (cfg : ApprovalConfig) :
    (∀ n : Int, cfg.amount = Amount.big n → approvalAmount cfg = n) ∧
    (∀ v : String, cfg.amount = Amount.str v →
       approvalAmount cfg = parseUnits v (cfg.decimals.getD 18)) ∧
    (∀ (n : Int) (d d' : Option Nat),
       approvalAmount { cfg with amount := Amount.big n, decimals := d } =
       approvalAmount { cfg with amount := Amount.big n, decimals := d' }) := by
  refine ⟨?_, ?_, ?_⟩ <;> intros <;> simp [approvalAmount, *]

/-- Witness for C10: a bigint amount passes through, a string amount is
parsed with the configured decimals. -/
theorem approvalAmount_spec_witness :
    approvalAmount cfgW = 100 ∧
    approvalAmount { cfgW with amount := Amount.str "1.5", decimals := some 2 } = 150 :=
  ⟨(approvalAmount_spec cfgW).1 100 rfl,
   ((approvalAmount_spec _).2.1 "1.5" rfl).trans (by decide)⟩

/-- C7: `useUniversalReadContract` forwards its parameters to the
read-query primitive with defaults substituted for omitted ones and
returns the primitive's result fields unchanged — it coincides with the
direct delegation written from the spec's words. -/
theorem useUniversalReadContract_refines_spec {α : Type}
    (useReadContract : ReadRequest → ReadResult α) (p : ReadParams) :
    useUniversalReadContract useReadContract p =
      useUniversalReadContractSpec useReadContract p := rfl

/-- C3: with no `approvalConfig`, `execute` submits the dependent
transaction directly and the approval write primitive is never invoked;
with an `approvalConfig`, `execute` begins with (and only with) the
approval submission.  The approval step is entered iff `approvalConfig`
is provided. -/
theorem approval_step_iff_approvalConfig (P : Params) (s : HookState) :
    (P.approvalConfig = none →
       (step P s Event.evExecute).2 =
         [Output.writeTransactionCall P.transactionConfig.contractAddress
            P.transactionConfig.contractAbi P.transactionConfig.functionName
            (P.transactionConfig.args.getD [])]) ∧
    (∀ cfg, P.approvalConfig = some cfg →
       (step P s Event.evExecute).2 =
         [Output.writeApprovalCall cfg.tokenAddress cfg.tokenAbi "approve"
            [ArgVal.addr cfg.spenderAddress, ArgVal.amt (approvalAmount cfg)]]) := by
  have hstep : (step P s Event.evExecute).2 =
      (execute P s).2 ++ (renderLoop P renderFuel (execute P s).1).2 := rfl
  constructor
  · intro h
    have hex : execute P s =
        ({ approvalHash := none, transactionHash := none, isApproving := false
           isTransacting := true, approvalError := none, transactionError := none
           approvalClient := WriteClient.init
           transactionClient := { pending := true, data := none, error := none }
           approvalReceipt := Receipt.init, transactionReceipt := Receipt.init
           prevDeps := s.prevDeps },
         [Output.writeTransactionCall P.transactionConfig.contractAddress
            P.transactionConfig.contractAbi P.transactionConfig.functionName
            (P.transactionConfig.args.getD [])]) := by
      simp [execute, h, executeTransaction]
    rw [hstep, hex]
    rw [renderLoop_quiet' (by decide) rfl rfl rfl rfl rfl rfl]
    rfl
  · intro cfg h
    have hex : execute P s =
        ({ approvalHash := none, transactionHash := none, isApproving := true
           isTransacting := false, approvalError := none, transactionError := none
           approvalClient := { pending := true, data := none, error := none }
           transactionClient := WriteClient.init
           approvalReceipt := Receipt.init, transactionReceipt := Receipt.init
           prevDeps := s.prevDeps },
         [Output.writeApprovalCall cfg.tokenAddress cfg.tokenAbi "approve"
            [ArgVal.addr cfg.spenderAddress, ArgVal.amt (approvalAmount cfg)]]) := by
      simp [execute, h, executeApproval]
    rw [hstep, hex]
    rw [renderLoop_quiet' (by decide) rfl rfl rfl rfl rfl rfl]
    rfl

/-- Witness for C3: without an `approvalConfig` the first submission is
the dependent transaction itself. -/
theorem approval_step_iff_approvalConfig_witness :
    (step PN HookState.init Event.evExecute).2 =
      [Output.writeTransactionCall "0xDAPP" "dappAbi" "invest" [ArgVal.amt 5]] :=
  (approval_step_iff_approvalConfig PN HookState.init).1 rfl

/-- C8: `execute` first restores the flow's state to its initial values —
hashes and errors to `null`, `isApproving`/`isTransacting` to `false`,
both write clients reset — exactly as `reset` does, before submitting
anything; `reset` performs the same clearing while submitting nothing and
invoking no callback. -/
theorem execute_resets_before_submitting (P : Params) (s : HookState) :
    (execute P s = (match P.approvalConfig with
       | some _ => executeApproval P (reset s)
       | none => executeTransaction P (reset s))) ∧
    (reset s).approvalHash = none ∧ (reset s).transactionHash = none ∧
    (reset s).approvalError = none ∧ (reset s).transactionError = none ∧
    (reset s).isApproving = false ∧ (reset s).isTransacting = false ∧
    (reset s).approvalClient = WriteClient.init ∧
    (reset s).transactionClient = WriteClient.init ∧
    (step P s Event.evReset).2 = [] := by
  refine ⟨rfl, rfl, rfl, rfl, rfl, rfl, rfl, rfl, rfl, ?_⟩
  have hstep : step P s Event.evReset = renderLoop P renderFuel (reset s) := rfl
  rw [hstep, renderLoop_quiet' (by decide) rfl rfl rfl rfl rfl rfl]

/-- Witness for C8: resetting the freshly mounted hook emits nothing. -/
theorem execute_resets_before_submitting_witness :
    (step PW HookState.init Event.evReset).2 = [] :=
  (execute_resets_before_submitting PW HookState.init).2.2.2.2.2.2.2.2.2

/-- For a non-imperative event, a submitted dependent transaction forces
an observed approval success in the resulting state. -/
lemma step_isApprovalSuccess_of_countTx (P : Params) (s : HookState) (ev : Event)
    (hne : ev ≠ Event.evExecute) (hnr : ev ≠ Event.evReset)
    (hcnt : 1 ≤ countTx (step P s ev).2) :
    isApprovalSuccess (step P s ev).1 = true := by
  by_cases he : enabledEvent s ev = true
  · rw [step_enabled_eq P he hne hnr] at hcnt ⊢
    rw [countTx_append] at hcnt
    have h0 : countTx (applyEvent s ev).2 = 0 := by cases ev <;> rfl
    exact renderLoop_countTx_pos P renderFuel _ (by omega)
  · rw [step_disabled P (by simpa using he)] at hcnt
    simp at hcnt

/-- C1: with an `approvalConfig`, the dependent transaction's write
primitive is invoked only when `isApprovalSuccess` is observed true (and
hence an `approvalHash` is recorded) in the resulting state, and waiting
on the dependent transaction's confirmation requires its hash to be set. -/
theorem approval_confirmed_before_transaction_write (P : Params) (s : HookState)
    (ev : Event) (hP : P.approvalConfig.isSome = true)
    (hTx : ∃ o ∈ (step P s ev).2, isTxWrite o = true) :
    isApprovalSuccess (step P s ev).1 = true ∧
    (step P s ev).1.approvalHash.isSome = true ∧
    (∀ t : HookState, isTransactionConfirming t = true →
       t.transactionHash.isSome = true) := by
  have hcnt : 1 ≤ countTx (step P s ev).2 := (countTx_pos_iff _).mpr hTx
  have hmain : isApprovalSuccess (step P s ev).1 = true := by
    cases ev with
    | evExecute =>
        rw [step_execute_eq] at hcnt ⊢
        obtain ⟨cfg, hcfg⟩ := Option.isSome_iff_exists.mp hP
        have hex : (execute P s).2 =
            [Output.writeApprovalCall cfg.tokenAddress cfg.tokenAbi "approve"
              [ArgVal.addr cfg.spenderAddress, ArgVal.amt (approvalAmount cfg)]] := by
          simp [execute, hcfg, executeApproval]
        rw [countTx_append, hex] at hcnt
        have h0 : countTx [Output.writeApprovalCall cfg.tokenAddress cfg.tokenAbi "approve"
            [ArgVal.addr cfg.spenderAddress, ArgVal.amt (approvalAmount cfg)]] = 0 := rfl
        exact renderLoop_countTx_pos P renderFuel _ (by omega)
    | evReset =>
        rw [step_reset_eq] at hcnt
        rw [renderLoop_quiet' (by decide) rfl rfl rfl rfl rfl rfl] at hcnt
        simp at hcnt
    | evApprovalWriteOk h => exact step_isApprovalSuccess_of_countTx P s _ nofun nofun hcnt
    | evApprovalWriteErr e => exact step_isApprovalSuccess_of_countTx P s _ nofun nofun hcnt
    | evTransactionWriteOk h => exact step_isApprovalSuccess_of_countTx P s _ nofun nofun hcnt
    | evTransactionWriteErr e => exact step_isApprovalSuccess_of_countTx P s _ nofun nofun hcnt
    | evApprovalConfirmOk => exact step_isApprovalSuccess_of_countTx P s _ nofun nofun hcnt
    | evApprovalConfirmErr e => exact step_isApprovalSuccess_of_countTx P s _ nofun nofun hcnt
    | evTransactionConfirmOk => exact step_isApprovalSuccess_of_countTx P s _ nofun nofun hcnt
    | evTransactionConfirmErr e => exact step_isApprovalSuccess_of_countTx P s _ nofun nofun hcnt
  refine ⟨hmain, ?_, ?_⟩
  · have hb := hmain
    simp only [isApprovalSuccess, Bool.and_eq_true] at hb
    exact hb.1
  · intro t ht
    simp only [isTransactionConfirming, Bool.and_eq_true] at ht
    exact ht.1.1

/-- Witness for C1: confirming the approval in a mid-flow state submits
the dependent transaction and the resulting state observes the approval
as successful. -/
theorem approval_confirmed_before_transaction_write_witness :
    isApprovalSuccess (step PW sW Event.evApprovalConfirmOk).1 = true :=
  (approval_confirmed_before_transaction_write PW sW Event.evApprovalConfirmOk
    (by decide) (by decide)).1

/-! ## After an approval failure -/

/-- A render pass preserves the approval-failed state. -/
lemma effectsPass_failInv (P : Params) (s : HookState) (h : FailInv s) :
    FailInv (effectsPass P s).1 ∧ countTx (effectsPass P s).2 = 0 := by
  obtain ⟨hs, hp, hd, hh⟩ := h
  have hsucc : isApprovalSuccess s = false := by simp [isApprovalSuccess, hs]
  constructor
  · refine ⟨?_, ?_, ?_, ?_⟩
    · rw [effectsPass_approvalReceipt]; exact hs
    · rw [effectsPass_approvalClient]; exact hp
    · rw [effectsPass_approvalClient, effectsPass_approvalReceipt]; exact hd
    · intro hhs
      rw [effectsPass_approvalReceipt]
      have hh1 : (effectsPass P s).1.approvalHash = (eff1 s s).approvalHash := by
        simp [effectsPass]
      rw [hh1] at hhs
      rcases eff1_cases s s with h1 | ⟨a, ha, h1⟩
      · rw [h1] at hhs; exact hh hhs
      · exact hd (by simp [ha])
  · exact effectsPass_countTx_zero P s hsucc

/-- The render loop preserves the approval-failed state and never submits
the dependent transaction from it. -/
lemma renderLoop_failInv (P : Params) :
    ∀ (n : Nat) (s : HookState), FailInv s →
      FailInv (renderLoop P n s).1 ∧ countTx (renderLoop P n s).2 = 0 := by
  intro n
  induction n with
  | zero => intro s h; exact ⟨h, rfl⟩
  | succ n ih =>
      intro s h
      by_cases hc : depsOf s = s.prevDeps
      · rw [renderLoop_stop n hc]; exact ⟨h, rfl⟩
      · rw [renderLoop_go n hc]
        obtain ⟨h1, h2⟩ := effectsPass_failInv P s h
        obtain ⟨h3, h4⟩ := ih _ h1
        exact ⟨h3, by rw [countTx_append, h2, h4]⟩

/-- Any step other than `execute` preserves the approval-failed state and
never submits the dependent transaction. -/
lemma step_failInv (P : Params) (s : HookState) (ev : Event) (h : FailInv s)
    (hne : ev ≠ Event.evExecute) :
    FailInv (step P s ev).1 ∧ countTx (step P s ev).2 = 0 := by
  obtain ⟨hs, hp, hd, hh⟩ := h
  have hconfirmOff : s.approvalHash.isSome = true → s.approvalReceipt.error.isNone = false := by
    intro hx
    obtain ⟨e0, he0⟩ := Option.isSome_iff_exists.mp (hh hx)
    simp [he0]
  cases ev with
  | evExecute => exact absurd rfl hne
  | evReset =>
      rw [step_reset_eq]
      exact renderLoop_failInv P renderFuel (reset s)
        (by simp [FailInv, reset, WriteClient.init, Receipt.init])
  | evApprovalWriteOk h' =>
      rw [step_disabled P (by simp [enabledEvent, hp])]
      exact ⟨⟨hs, hp, hd, hh⟩, rfl⟩
  | evApprovalWriteErr e =>
      rw [step_disabled P (by simp [enabledEvent, hp])]
      exact ⟨⟨hs, hp, hd, hh⟩, rfl⟩
  | evApprovalConfirmOk =>
      have hen : enabledEvent s Event.evApprovalConfirmOk = false := by
        simp only [enabledEvent, isApprovingConfirming]
        cases hcase : s.approvalHash with
        | none => simp
        | some a => simp [hconfirmOff (by simp [hcase])]
      rw [step_disabled P hen]
      exact ⟨⟨hs, hp, hd, hh⟩, rfl⟩
  | evApprovalConfirmErr e =>
      have hen : enabledEvent s (Event.evApprovalConfirmErr e) = false := by
        simp only [enabledEvent, isApprovingConfirming]
        cases hcase : s.approvalHash with
        | none => simp
        | some a => simp [hconfirmOff (by simp [hcase])]
      rw [step_disabled P hen]
      exact ⟨⟨hs, hp, hd, hh⟩, rfl⟩
  | evTransactionWriteOk h' =>
      by_cases he : enabledEvent s (Event.evTransactionWriteOk h') = true
      · rw [step_enabled_eq P he nofun nofun]
        obtain ⟨h1, h2⟩ := renderLoop_failInv P renderFuel
          (applyEvent s (Event.evTransactionWriteOk h')).1 ⟨hs, hp, hd, hh⟩
        exact ⟨h1, by rw [countTx_append, h2]; rfl⟩
      · rw [step_disabled P (by simpa using he)]
        exact ⟨⟨hs, hp, hd, hh⟩, rfl⟩
  | evTransactionWriteErr e =>
      by_cases he : enabledEvent s (Event.evTransactionWriteErr e) = true
      · rw [step_enabled_eq P he nofun nofun]
        obtain ⟨h1, h2⟩ := renderLoop_failInv P renderFuel
          (applyEvent s (Event.evTransactionWriteErr e)).1 ⟨hs, hp, hd, hh⟩
        exact ⟨h1, by rw [countTx_append, h2]; rfl⟩
      · rw [step_disabled P (by simpa using he)]
        exact ⟨⟨hs, hp, hd, hh⟩, rfl⟩
  | evTransactionConfirmOk =>
      by_cases he : enabledEvent s Event.evTransactionConfirmOk = true
      · rw [step_enabled_eq P he nofun nofun]
        obtain ⟨h1, h2⟩ := renderLoop_failInv P renderFuel
          (applyEvent s Event.evTransactionConfirmOk).1 ⟨hs, hp, hd, hh⟩
        exact ⟨h1, by rw [countTx_append, h2]; rfl⟩
      · rw [step_disabled P (by simpa using he)]
        exact ⟨⟨hs, hp, hd, hh⟩, rfl⟩
  | evTransactionConfirmErr e =>
      by_cases he : enabledEvent s (Event.evTransactionConfirmErr e) = true
      · rw [step_enabled_eq P he nofun nofun]
        obtain ⟨h1, h2⟩ := renderLoop_failInv P renderFuel
          (applyEvent s (Event.evTransactionConfirmErr e)).1 ⟨hs, hp, hd, hh⟩
        exact ⟨h1, by rw [countTx_append, h2]; rfl⟩
      · rw [step_disabled P (by simpa using he)]
        exact ⟨⟨hs, hp, hd, hh⟩, rfl⟩

/-- A whole `execute`-free trace from an approval-failed state preserves
it and never submits the dependent transaction. -/
lemma run_failInv (P : Params) :
    ∀ (evs : List Event) (s : HookState), FailInv s →
      (∀ ev ∈ evs, ev ≠ Event.evExecute) →
      FailInv (run P s evs).1 ∧ countTx (run P s evs).2 = 0 := by
  intro evs
  induction evs with
  | nil => intro s h _; exact ⟨h, rfl⟩
  | cons ev evs ih =>
      intro s h hne
      obtain ⟨h1, h2⟩ := step_failInv P s ev h (hne ev (List.mem_cons_self _ _))
      obtain ⟨h3, h4⟩ := ih _ h1 (fun e he => hne e (List.mem_cons_of_mem _ he))
      exact ⟨h3, by simp only [run]; rw [countTx_append, h2, h4]⟩

/-- After an approval write failure, the recorded error and failure state
survive the whole render loop. -/
lemma effectsPass_errSticky (P : Params) (s : HookState) (e : Err)
    (hc : s.approvalClient = { pending := false, data := none, error := some e })
    (hh : s.approvalHash = none) (ha : s.approvalError = some e) :
    (effectsPass P s).1.approvalClient =
      ({ pending := false, data := none, error := some e } : WriteClient) ∧
    (effectsPass P s).1.approvalHash = none ∧
    (effectsPass P s).1.approvalError = some e := by
  have hd : s.approvalClient.data = none := by rw [hc]
  have h5 : approvalConfirmError s = none := by simp [approvalConfirmError, hh]
  refine ⟨by rw [effectsPass_approvalClient]; exact hc, ?_, ?_⟩
  · have h1 : (effectsPass P s).1.approvalHash = (eff1 s s).approvalHash := by
      simp [effectsPass]
    rw [h1, eff1_quiet s hd]
    exact hh
  · have h1 : (effectsPass P s).1.approvalError =
        (eff5 s (eff4 s (eff3 s (eff2 s (eff1 s s))).1).1).1.approvalError := by
      simp [effectsPass]
    rw [h1, eff5_quiet _ h5, eff4_approvalError]
    rcases eff3_cases s (eff2 s (eff1 s s)) with h3 | ⟨e', he', h3⟩
    · rw [h3, eff2_approvalError, eff1_approvalError]
      exact ha
    · rw [hc] at he'
      have : e' = e := by
        have := he'.symm
        simpa using this
      rw [h3, this]
  
/-- Render-loop version of `effectsPass_errSticky`. -/
lemma renderLoop_errSticky (P : Params) (e : Err) :
    ∀ (n : Nat) (s : HookState),
      s.approvalClient = { pending := false, data := none, error := some e } →
      s.approvalHash = none → s.approvalError = some e →
      (renderLoop P n s).1.approvalError = some e := by
  intro n
  induction n with
  | zero => intro s _ _ ha; exact ha
  | succ n ih =>
      intro s hc hh ha
      by_cases hcond : depsOf s = s.prevDeps
      · rw [renderLoop_stop n hcond]; exact ha
      · rw [renderLoop_go n hcond]
        obtain ⟨h1, h2, h3⟩ := effectsPass_errSticky P s e hc hh ha
        exact ih _ h1 h2 h3

/-! ## Evaluating the render loop after single events -/

lemma renderLoop_go' {P : Params} {s s' : HookState} {out : List Output} (n : Nat)
    (hc : ¬depsOf s = s.prevDeps) (hq : effectsPass P s = (s', out)) :
    renderLoop P (n + 1) s = ((renderLoop P n s').1, out ++ (renderLoop P n s').2) := by
  simp [renderLoop, hc, hq]

/-- If a render pass only refreshes the dependency snapshot, the loop
terminates there. -/
lemma renderLoop_settle {P : Params} {s : HookState} (n : Nat) (hn : 2 ≤ n)
    (hq : effectsPass P s = ({ s with prevDeps := depsOf s }, [])) :
    renderLoop P n s = ({ s with prevDeps := depsOf s }, []) := by
  obtain ⟨m, rfl⟩ : ∃ m, n = m + 2 := ⟨n - 2, by omega⟩
  by_cases hc : depsOf s = s.prevDeps
  · rw [renderLoop_stop _ hc, hc, hookState_eta_prevDeps]
  · rw [renderLoop_go' (m + 1) hc hq,
      renderLoop_stop m (by rw [depsOf_set_prevDeps])]
    rfl

/-- Evaluation of a step on the `approvalConfirmErr` event from a synced
mid-flow state: effect 5 fires once, recording the error. -/
lemma step_approvalConfirmErr_eq (P : Params) (s : HookState) (e : Err) {a : Hash}
    (hSync : Sync s) (hh : s.approvalHash = some a)
    (hs : s.approvalReceipt.success = false) (her : s.approvalReceipt.error = none) :
    step P s (Event.evApprovalConfirmErr e) =
      ({ s with approvalReceipt := { success := false, error := some e }
              , approvalError := some e, isApproving := false
              , prevDeps := depsOf { s with
                  approvalReceipt := { success := false, error := some e } } },
       [Output.cbApprovalError e]) := by
  have hen : enabledEvent s (Event.evApprovalConfirmErr e) = true := by
    simp [enabledEvent, isApprovingConfirming, hh, hs, her]
  rw [step_enabled_eq P hen nofun nofun]
  have happ : applyEvent s (Event.evApprovalConfirmErr e) =
      ({ s with approvalReceipt := { success := false, error := some e } }, []) := rfl
  rw [happ]
  set s0 : HookState :=
    { s with approvalReceipt := { success := false, error := some e } } with hs0def
  have hpd : s0.prevDeps = depsOf s := hSync.symm
  have E1 : eff1 s0 s0 = s0 := eff1_nodep s0 (by rw [hpd, hs0def]; rfl)
  have E2 : eff2 s0 s0 = s0 := eff2_nodep s0 (by rw [hpd, hs0def]; rfl)
  have E3 : eff3 s0 s0 = (s0, []) := eff3_nodep s0 (by rw [hpd, hs0def]; rfl)
  have E4 : eff4 s0 s0 = (s0, []) := eff4_nodep s0 (by rw [hpd, hs0def]; rfl)
  have E5 : eff5 s0 s0 =
      ({ s0 with approvalError := some e, isApproving := false },
       [Output.cbApprovalError e]) :=
    eff5_fire s0
      (by rw [hpd]; simp [depsOf, approvalConfirmError, hh, her, hs0def])
      (by simp [approvalConfirmError, hh, hs0def])
  have E6 : eff6 s0 ({ s0 with approvalError := some e, isApproving := false }) =
      ({ s0 with approvalError := some e, isApproving := false }, []) :=
    eff6_nodep _ (by rw [hpd, hs0def]; rfl)
  have E7 : eff7 P s0 ({ s0 with approvalError := some e, isApproving := false }) =
      ({ s0 with approvalError := some e, isApproving := false }, []) :=
    eff7_nodep _ (by rw [hpd]; simp [depsOf, isApprovalSuccess, hh, hs, hs0def])
  have E8 : eff8 s0 ({ s0 with approvalError := some e, isApproving := false }) =
      ({ s0 with approvalError := some e, isApproving := false }, []) :=
    eff8_nodep _ (by rw [hpd, hs0def]; rfl)
  have hp1 := effectsPass_eval E1 E2 E3 E4 E5 E6 E7 E8
  simp only [List.nil_append, List.append_nil] at hp1
  have hcond : ¬depsOf s0 = s0.prevDeps := by
    rw [hpd]
    intro hx
    have hx5 := congrArg Deps.d5 hx
    simp [depsOf, approvalConfirmError, hh, her, hs0def] at hx5
  set s1 : HookState :=
    { s0 with approvalError := some e, isApproving := false, prevDeps := depsOf s0 }
    with hs1def
  have hp1' : effectsPass P s0 = (s1, [Output.cbApprovalError e]) := by
    rw [hp1, hs1def]
  have hsettle : effectsPass P s1 = ({ s1 with prevDeps := depsOf s1 }, []) :=
    effectsPass_eval (eff1_nodep s1 (by rw [hs1def, hs0def]; rfl))
      (eff2_nodep _ (by rw [hs1def, hs0def]; rfl)) (eff3_nodep _ (by rw [hs1def, hs0def]; rfl))
      (eff4_nodep _ (by rw [hs1def, hs0def]; rfl)) (eff5_nodep _ (by rw [hs1def, hs0def]; rfl))
      (eff6_nodep _ (by rw [hs1def, hs0def]; rfl)) (eff7_nodep _ (by rw [hs1def, hs0def]; rfl))
      (eff8_nodep _ (by rw [hs1def, hs0def]; rfl))
  have hrl : renderLoop P renderFuel s0 =
      ((renderLoop P 7 s1).1, [Output.cbApprovalError e] ++ (renderLoop P 7 s1).2) :=
    renderLoop_go' 7 hcond hp1'
  have hrl2 : renderLoop P 7 s1 = ({ s1 with prevDeps := depsOf s1 }, []) :=
    renderLoop_settle 7 (by omega) hsettle
  simp only [hrl, hrl2, List.append_nil, List.nil_append]
  rw [hs1def, hs0def]
  rfl

/-- C2: with an `approvalConfig`, a failing approval step — whether the
approval write errors or the approval confirmation errors — records the
failure in `approvalError`, invokes the `onApprovalError` callback, and
the dependent transaction is never submitted, neither at the failing step
nor in any later step of that execution (any continuation without a new
`execute`). -/
theorem approval_failure_stops_flow (P : Params) (hP : P.approvalConfig.isSome = true) :
    (∀ (s : HookState) (e : Err),
       s.approvalClient.pending = true → s.approvalHash = none →
       s.approvalReceipt.success = false →
       (step P s (Event.evApprovalWriteErr e)).1.approvalError = some e ∧
       Output.cbApprovalError e ∈ (step P s (Event.evApprovalWriteErr e)).2 ∧
       countTx (step P s (Event.evApprovalWriteErr e)).2 = 0 ∧
       FailInv (step P s (Event.evApprovalWriteErr e)).1) ∧
    (∀ (s : HookState) (e : Err) (a : Hash),
       Sync s → s.approvalHash = some a → s.approvalReceipt.success = false →
       s.approvalReceipt.error = none → s.approvalClient.pending = false →
       (step P s (Event.evApprovalConfirmErr e)).1.approvalError = some e ∧
       Output.cbApprovalError e ∈ (step P s (Event.evApprovalConfirmErr e)).2 ∧
       countTx (step P s (Event.evApprovalConfirmErr e)).2 = 0 ∧
       FailInv (step P s (Event.evApprovalConfirmErr e)).1) ∧
    (∀ (s : HookState) (evs : List Event), FailInv s →
       (∀ ev ∈ evs, ev ≠ Event.evExecute) →
       countTx (run P s evs).2 = 0) := by
  refine ⟨?_, ?_, ?_⟩
  · intro s e hp hh hr
    have hen : enabledEvent s (Event.evApprovalWriteErr e) = true := by
      simp [enabledEvent, hp]
    rw [step_enabled_eq P hen nofun nofun]
    have happ : applyEvent s (Event.evApprovalWriteErr e) =
        ({ s with approvalClient := { pending := false, data := none, error := some e }
                , approvalError := some e, isApproving := false },
         [Output.cbApprovalError e]) := rfl
    simp only [happ]
    set s0 : HookState :=
      { s with approvalClient := { pending := false, data := none, error := some e }
             , approvalError := some e, isApproving := false } with hs0def
    have hc : s0.approvalClient =
        ({ pending := false, data := none, error := some e } : WriteClient) := by
      rw [hs0def]
    have hh0 : s0.approvalHash = none := by rw [hs0def]; exact hh
    have ha0 : s0.approvalError = some e := by rw [hs0def]
    have hfail : FailInv s0 :=
      ⟨by rw [hs0def]; exact hr, by rw [hc], by simp [hc], by simp [hs0def, hh]⟩
    obtain ⟨hf1, hf2⟩ := renderLoop_failInv P renderFuel s0 hfail
    have herr := renderLoop_errSticky P e renderFuel s0 hc hh0 ha0
    refine ⟨herr, ?_, ?_, hf1⟩
    · exact List.mem_append_left _ (List.mem_cons_self _ _)
    · rw [countTx_append, hf2]; rfl
  · intro s e a hSync hh hs her hp
    rw [step_approvalConfirmErr_eq P s e hSync hh hs her]
    exact ⟨rfl, List.mem_cons_self _ _, rfl, rfl, hp, fun _ => rfl, fun _ => rfl⟩
  · intro s evs hf hne
    exact (run_failInv P evs s hf hne).2

/-- Witness for C2: a failing approval write in a mid-flow state records
the error. -/
theorem approval_failure_stops_flow_witness :
    (step PW sPendW (Event.evApprovalWriteErr "boom")).1.approvalError = some "boom" :=
  ((approval_failure_stops_flow PW (by decide)).1 sPendW "boom" (by decide) (by decide)
    (by decide)).1

/-! ## Evaluating steps for the at-most-once argument -/

lemma eff7_guardFalse {P : Params} {s : HookState} (t : HookState)
    (hg : (isApprovalSuccess s && !s.isTransacting && s.transactionHash.isNone) = false) :
    eff7 P s t = (t, []) := by
  unfold eff7
  split
  · cases hh : s.approvalHash with
    | none => rfl
    | some a => rw [hg]; simp
  · rfl

lemma step_reset_state (P : Params) (s : HookState) :
    step P s Event.evReset = ({ reset s with prevDeps := depsOf (reset s) }, []) := by
  rw [step_reset_eq]
  exact renderLoop_quiet' (by decide) rfl rfl rfl rfl rfl rfl

/-- Step evaluation: the approval write resolving with a hash while the
approval side is fresh.  Effect 1 records the hash; nothing else fires. -/
lemma step_approvalWriteOk_eq (P : Params) (s : HookState) (h : Hash)
    (hSync : Sync s) (hp : s.approvalClient.pending = true)
    (hd : s.approvalClient.data = none) (he : s.approvalClient.error = none)
    (hh : s.approvalHash = none) (hr : s.approvalReceipt = Receipt.init) :
    step P s (Event.evApprovalWriteOk h) =
      ({ s with approvalClient := { pending := false, data := some h, error := none }
              , approvalHash := some h
              , prevDeps := depsOf { s with
                  approvalClient := { pending := false, data := some h, error := none }
                  , approvalHash := some h } },
       []) := by
  have hen : enabledEvent s (Event.evApprovalWriteOk h) = true := hp
  rw [step_enabled_eq P hen nofun nofun]
  have happ : applyEvent s (Event.evApprovalWriteOk h) =
      ({ s with approvalClient := { pending := false, data := some h, error := none } },
       []) := rfl
  simp only [happ]
  set s0 : HookState :=
    { s with approvalClient := { pending := false, data := some h, error := none } }
    with hs0def
  have hpd : s0.prevDeps = depsOf s := hSync.symm
  have E1 : eff1 s0 s0 = { s0 with approvalHash := some h } :=
    eff1_fire s0 (by rw [hpd]; simp [depsOf, hs0def, hd]) (by rw [hs0def])
  have E2 : eff2 s0 { s0 with approvalHash := some h } = { s0 with approvalHash := some h } :=
    eff2_nodep _ (by rw [hpd, hs0def]; rfl)
  have E3 : eff3 s0 { s0 with approvalHash := some h } =
      ({ s0 with approvalHash := some h }, []) :=
    eff3_nodep _ (by rw [hpd]; simp [depsOf, hs0def, he])
  have E4 : eff4 s0 { s0 with approvalHash := some h } =
      ({ s0 with approvalHash := some h }, []) :=
    eff4_nodep _ (by rw [hpd, hs0def]; rfl)
  have E5 : eff5 s0 { s0 with approvalHash := some h } =
      ({ s0 with approvalHash := some h }, []) :=
    eff5_nodep _ (by rw [hpd]; simp [depsOf, approvalConfirmError, hs0def, hh])
  have E6 : eff6 s0 { s0 with approvalHash := some h } =
      ({ s0 with approvalHash := some h }, []) :=
    eff6_nodep _ (by rw [hpd, hs0def]; rfl)
  have E7 : eff7 P s0 { s0 with approvalHash := some h } =
      ({ s0 with approvalHash := some h }, []) :=
    eff7_nodep _ (by rw [hpd]; simp [depsOf, isApprovalSuccess, hs0def, hh])
  have E8 : eff8 s0 { s0 with approvalHash := some h } =
      ({ s0 with approvalHash := some h }, []) :=
    eff8_nodep _ (by rw [hpd, hs0def]; rfl)
  have hp1 := effectsPass_eval E1 E2 E3 E4 E5 E6 E7 E8
  simp only [List.nil_append, List.append_nil] at hp1
  have hcond : ¬depsOf s0 = s0.prevDeps := by
    rw [hpd]
    intro hx
    have hx1 := congrArg Deps.d1 hx
    simp [depsOf, hs0def, hd] at hx1
  set s1 : HookState :=
    { s0 with approvalHash := some h, prevDeps := depsOf s0 } with hs1def
  have hp1' : effectsPass P s0 = (s1, []) := by rw [hp1, hs1def]
  have hsettle : effectsPass P s1 = ({ s1 with prevDeps := depsOf s1 }, []) :=
    effectsPass_eval (eff1_nodep s1 (by rw [hs1def, hs0def]; rfl))
      (eff2_nodep _ (by rw [hs1def, hs0def]; rfl))
      (eff3_nodep _ (by rw [hs1def, hs0def]; rfl))
      (eff4_nodep _ (by rw [hs1def, hs0def]; rfl))
      (eff5_nodep _ (by rw [hs1def]; simp [depsOf, approvalConfirmError, hs0def, hh, hr, Receipt.init]))
      (eff6_nodep _ (by rw [hs1def, hs0def]; rfl))
      (eff7_notSuccess _ (by rw [hs1def]; simp [isApprovalSuccess, hs0def, hr, Receipt.init]))
      (eff8_nodep _ (by rw [hs1def, hs0def]; rfl))
  have hrl : renderLoop P renderFuel s0 =
      ((renderLoop P 7 s1).1, [] ++ (renderLoop P 7 s1).2) :=
    renderLoop_go' 7 hcond hp1'
  have hrl2 : renderLoop P 7 s1 = ({ s1 with prevDeps := depsOf s1 }, []) :=
    renderLoop_settle 7 (by omega) hsettle
  simp only [hrl, hrl2, List.append_nil, List.nil_append]
  rw [hs1def, hs0def]
  rfl

/-- Step evaluation: the approval write failing while the approval side is
fresh.  The per-call `onError` and effect 3 both record the error. -/
lemma step_approvalWriteErr_eq (P : Params) (s : HookState) (e : Err)
    (hSync : Sync s) (hp : s.approvalClient.pending = true)
    (hd : s.approvalClient.data = none) (he : s.approvalClient.error = none)
    (hh : s.approvalHash = none) :
    step P s (Event.evApprovalWriteErr e) =
      ({ s with approvalClient := { pending := false, data := none, error := some e }
              , approvalError := some e, isApproving := false
              , prevDeps := depsOf { s with
                  approvalClient := { pending := false, data := none, error := some e }
                  , approvalError := some e, isApproving := false } },
       [Output.cbApprovalError e, Output.cbApprovalError e]) := by
  have hen : enabledEvent s (Event.evApprovalWriteErr e) = true := hp
  rw [step_enabled_eq P hen nofun nofun]
  have happ : applyEvent s (Event.evApprovalWriteErr e) =
      ({ s with approvalClient := { pending := false, data := none, error := some e }
              , approvalError := some e, isApproving := false },
       [Output.cbApprovalError e]) := rfl
  simp only [happ]
  set s0 : HookState :=
    { s with approvalClient := { pending := false, data := none, error := some e }
           , approvalError := some e, isApproving := false } with hs0def
  have hpd : s0.prevDeps = depsOf s := hSync.symm
  have E1 : eff1 s0 s0 = s0 := eff1_quiet s0 (by rw [hs0def])
  have E2 : eff2 s0 s0 = s0 := eff2_nodep _ (by rw [hpd, hs0def]; rfl)
  have E3 : eff3 s0 s0 =
      ({ s0 with approvalError := some e, isApproving := false },
       [Output.cbApprovalError e]) :=
    eff3_fire s0 (by rw [hpd]; simp [depsOf, hs0def, he]) (by rw [hs0def])
  have E4 : eff4 s0 { s0 with approvalError := some e, isApproving := false } =
      ({ s0 with approvalError := some e, isApproving := false }, []) :=
    eff4_nodep _ (by rw [hpd, hs0def]; rfl)
  have E5 : eff5 s0 { s0 with approvalError := some e, isApproving := false } =
      ({ s0 with approvalError := some e, isApproving := false }, []) :=
    eff5_nodep _ (by rw [hpd]; simp [depsOf, approvalConfirmError, hs0def, hh])
  have E6 : eff6 s0 { s0 with approvalError := some e, isApproving := false } =
      ({ s0 with approvalError := some e, isApproving := false }, []) :=
    eff6_nodep _ (by rw [hpd, hs0def]; rfl)
  have E7 : eff7 P s0 { s0 with approvalError := some e, isApproving := false } =
      ({ s0 with approvalError := some e, isApproving := false }, []) :=
    eff7_nodep _ (by rw [hpd]; simp [depsOf, isApprovalSuccess, hs0def, hh])
  have E8 : eff8 s0 { s0 with approvalError := some e, isApproving := false } =
      ({ s0 with approvalError := some e, isApproving := false }, []) :=
    eff8_nodep _ (by rw [hpd, hs0def]; rfl)
  have hp1 := effectsPass_eval E1 E2 E3 E4 E5 E6 E7 E8
  simp only [List.nil_append, List.append_nil] at hp1
  have hcond : ¬depsOf s0 = s0.prevDeps := by
    rw [hpd]
    intro hx
    have hx3 := congrArg Deps.d3 hx
    simp [depsOf, hs0def, he] at hx3
  set s1 : HookState :=
    { s0 with approvalError := some e, isApproving := false, prevDeps := depsOf s0 }
    with hs1def
  have hp1' : effectsPass P s0 = (s1, [Output.cbApprovalError e]) := by
    rw [hp1, hs1def]
  have hsettle : effectsPass P s1 = ({ s1 with prevDeps := depsOf s1 }, []) :=
    effectsPass_eval (eff1_nodep s1 (by rw [hs1def, hs0def]; rfl))
      (eff2_nodep _ (by rw [hs1def, hs0def]; rfl))
      (eff3_nodep _ (by rw [hs1def, hs0def]; rfl))
      (eff4_nodep _ (by rw [hs1def, hs0def]; rfl))
      (eff5_nodep _ (by rw [hs1def, hs0def]; rfl))
      (eff6_nodep _ (by rw [hs1def, hs0def]; rfl))
      (eff7_nodep _ (by rw [hs1def, hs0def]; rfl))
      (eff8_nodep _ (by rw [hs1def, hs0def]; rfl))
  have hrl : renderLoop P renderFuel s0 =
      ((renderLoop P 7 s1).1, [Output.cbApprovalError e] ++ (renderLoop P 7 s1).2) :=
    renderLoop_go' 7 hcond hp1'
  have hrl2 : renderLoop P 7 s1 = ({ s1 with prevDeps := depsOf s1 }, []) :=
    renderLoop_settle 7 (by omega) hsettle
  simp only [hrl, hrl2, List.append_nil, List.nil_append]
  rw [hs1def, hs0def]
  rfl

/-- Step evaluation: the approval confirming while no transaction is in
flight or recorded — effect 7 fires and submits the dependent
transaction. -/
lemma step_approvalConfirmOk_fire_eq (P : Params) (s : HookState) {a : Hash}
    (hSync : Sync s) (hh : s.approvalHash = some a)
    (hs : s.approvalReceipt.success = false) (her : s.approvalReceipt.error = none)
    (ht : s.isTransacting = false) (hx : s.transactionHash = none) :
    step P s Event.evApprovalConfirmOk =
      ({ s with approvalReceipt := { success := true, error := none }
              , isApproving := false, isTransacting := true, transactionError := none
              , transactionClient := { pending := true, data := none, error := none }
              , prevDeps := depsOf { s with
                  approvalReceipt := { success := true, error := none }
                  , isApproving := false, isTransacting := true, transactionError := none
                  , transactionClient := { pending := true, data := none, error := none } } },
       [Output.cbApprovalSuccess a,
        Output.writeTransactionCall P.transactionConfig.contractAddress
          P.transactionConfig.contractAbi P.transactionConfig.functionName
          (P.transactionConfig.args.getD [])]) := by
  have hen : enabledEvent s Event.evApprovalConfirmOk = true := by
    simp [enabledEvent, isApprovingConfirming, hh, hs, her]
  rw [step_enabled_eq P hen nofun nofun]
  have happ : applyEvent s Event.evApprovalConfirmOk =
      ({ s with approvalReceipt := { success := true, error := none } }, []) := rfl
  simp only [happ]
  set s0 : HookState :=
    { s with approvalReceipt := { success := true, error := none } } with hs0def
  have hpd : s0.prevDeps = depsOf s := hSync.symm
  have E1 : eff1 s0 s0 = s0 := eff1_nodep s0 (by rw [hpd, hs0def]; rfl)
  have E2 : eff2 s0 s0 = s0 := eff2_nodep _ (by rw [hpd, hs0def]; rfl)
  have E3 : eff3 s0 s0 = (s0, []) := eff3_nodep _ (by rw [hpd, hs0def]; rfl)
  have E4 : eff4 s0 s0 = (s0, []) := eff4_nodep _ (by rw [hpd, hs0def]; rfl)
  have E5 : eff5 s0 s0 = (s0, []) :=
    eff5_nodep _ (by rw [hpd]; simp [depsOf, approvalConfirmError, hs0def, hh, her])
  have E6 : eff6 s0 s0 = (s0, []) := eff6_nodep _ (by rw [hpd, hs0def]; rfl)
  set t7 : HookState := { s0 with isApproving := false, isTransacting := true, transactionError := none, transactionClient := { pending := true, data := none, error := none } } with ht7def
  have E7 : eff7 P s0 s0 =
      (t7,
       [Output.cbApprovalSuccess a,
        Output.writeTransactionCall P.transactionConfig.contractAddress
          P.transactionConfig.contractAbi P.transactionConfig.functionName
          (P.transactionConfig.args.getD [])]) := by
    rw [ht7def]
    exact eff7_fire s0 (by rw [hpd]; simp [depsOf, isApprovalSuccess, hs0def, hh, hs])
      (by rw [hs0def]; exact hh)
      (by simp [isApprovalSuccess, hs0def, hh])
      (by rw [hs0def]; exact ht)
      (by rw [hs0def]; exact hx)
  have E8 : eff8 s0 t7 = (t7, []) :=
    eff8_nodep _ (by rw [hpd, hs0def]; rfl)
  have hp1 := effectsPass_eval E1 E2 E3 E4 E5 E6 E7 E8
  simp only [List.nil_append, List.append_nil] at hp1
  have hcond : ¬depsOf s0 = s0.prevDeps := by
    rw [hpd]
    intro hx7
    have hx7' := congrArg Deps.d7 hx7
    simp [depsOf, isApprovalSuccess, hs0def, hh, hs] at hx7'
  set s1 : HookState := { t7 with prevDeps := depsOf s0 } with hs1def
  have hp1' : effectsPass P s0 =
      (s1, [Output.cbApprovalSuccess a,
        Output.writeTransactionCall P.transactionConfig.contractAddress
          P.transactionConfig.contractAbi P.transactionConfig.functionName
          (P.transactionConfig.args.getD [])]) := by
    rw [hp1, hs1def, ht7def]
  have hsettle : effectsPass P s1 = ({ s1 with prevDeps := depsOf s1 }, []) :=
    effectsPass_eval (eff1_nodep s1 (by rw [hs1def, hs0def]; rfl))
      (eff2_quiet _ (by rw [hs1def]))
      (eff3_nodep _ (by rw [hs1def, hs0def]; rfl))
      (eff4_quiet _ (by rw [hs1def]))
      (eff5_nodep _ (by rw [hs1def, hs0def]; rfl))
      (eff6_nodep _ (by rw [hs1def, hs0def]; rfl))
      (eff7_nodep _ (by rw [hs1def, hs0def]; rfl))
      (eff8_nodep _ (by rw [hs1def, hs0def]; rfl))
  have hrl : renderLoop P renderFuel s0 =
      ((renderLoop P 7 s1).1,
       [Output.cbApprovalSuccess a,
        Output.writeTransactionCall P.transactionConfig.contractAddress
          P.transactionConfig.contractAbi P.transactionConfig.functionName
          (P.transactionConfig.args.getD [])] ++ (renderLoop P 7 s1).2) :=
    renderLoop_go' 7 hcond hp1'
  have hrl2 : renderLoop P 7 s1 = ({ s1 with prevDeps := depsOf s1 }, []) :=
    renderLoop_settle 7 (by omega) hsettle
  simp only [hrl, hrl2, List.append_nil, List.nil_append]
  rw [hs1def, hs0def]
  rfl

/-- Step evaluation: the approval confirming while a transaction is
already in flight or recorded — effect 7's guard blocks it. -/
lemma step_approvalConfirmOk_skip_eq (P : Params) (s : HookState) {a : Hash}
    (hSync : Sync s) (hh : s.approvalHash = some a)
    (hs : s.approvalReceipt.success = false) (her : s.approvalReceipt.error = none)
    (hb : s.isTransacting = true ∨ s.transactionHash.isSome = true) :
    step P s Event.evApprovalConfirmOk =
      ({ s with approvalReceipt := { success := true, error := none }
              , prevDeps := depsOf { s with
                  approvalReceipt := { success := true, error := none } } },
       []) := by
  have hen : enabledEvent s Event.evApprovalConfirmOk = true := by
    simp [enabledEvent, isApprovingConfirming, hh, hs, her]
  rw [step_enabled_eq P hen nofun nofun]
  have happ : applyEvent s Event.evApprovalConfirmOk =
      ({ s with approvalReceipt := { success := true, error := none } }, []) := rfl
  simp only [happ]
  set s0 : HookState :=
    { s with approvalReceipt := { success := true, error := none } } with hs0def
  have hpd : s0.prevDeps = depsOf s := hSync.symm
  have hguard : (isApprovalSuccess s0 && !s0.isTransacting && s0.transactionHash.isNone)
      = false := by
    rcases hb with hb | hb
    · simp [hs0def, hb]
    · obtain ⟨x, hx⟩ := Option.isSome_iff_exists.mp hb
      simp [hs0def, hx]
  have hsettle0 : effectsPass P s0 = ({ s0 with prevDeps := depsOf s0 }, []) :=
    effectsPass_eval (eff1_nodep s0 (by rw [hpd, hs0def]; rfl))
      (eff2_nodep _ (by rw [hpd, hs0def]; rfl))
      (eff3_nodep _ (by rw [hpd, hs0def]; rfl))
      (eff4_nodep _ (by rw [hpd, hs0def]; rfl))
      (eff5_nodep _ (by rw [hpd]; simp [depsOf, approvalConfirmError, hs0def, hh, her]))
      (eff6_nodep _ (by rw [hpd, hs0def]; rfl))
      (eff7_guardFalse _ hguard)
      (eff8_nodep _ (by rw [hpd, hs0def]; rfl))
  rw [renderLoop_settle renderFuel (by decide) hsettle0]
  rw [hs0def]
  rfl

/-- Step evaluation: the transaction write resolving with a hash while the
transaction side is fresh. -/
lemma step_transactionWriteOk_eq (P : Params) (s : HookState) (h : Hash)
    (hSync : Sync s) (hp : s.transactionClient.pending = true)
    (hd : s.transactionClient.data = none) (he : s.transactionClient.error = none)
    (hh : s.transactionHash = none) (hr : s.transactionReceipt = Receipt.init) :
    step P s (Event.evTransactionWriteOk h) =
      ({ s with transactionClient := { pending := false, data := some h, error := none }
              , transactionHash := some h
              , prevDeps := depsOf { s with
                  transactionClient := { pending := false, data := some h, error := none }
                  , transactionHash := some h } },
       []) := by
  have hen : enabledEvent s (Event.evTransactionWriteOk h) = true := hp
  rw [step_enabled_eq P hen nofun nofun]
  have happ : applyEvent s (Event.evTransactionWriteOk h) =
      ({ s with transactionClient := { pending := false, data := some h, error := none } },
       []) := rfl
  simp only [happ]
  set s0 : HookState :=
    { s with transactionClient := { pending := false, data := some h, error := none } }
    with hs0def
  have hpd : s0.prevDeps = depsOf s := hSync.symm
  have E1 : eff1 s0 s0 = s0 := eff1_nodep s0 (by rw [hpd, hs0def]; rfl)
  have E2 : eff2 s0 s0 = { s0 with transactionHash := some h } :=
    eff2_fire s0 (by rw [hpd]; simp [depsOf, hs0def, hd]) (by rw [hs0def])
  have E3 : eff3 s0 { s0 with transactionHash := some h } =
      ({ s0 with transactionHash := some h }, []) :=
    eff3_nodep _ (by rw [hpd, hs0def]; rfl)
  have E4 : eff4 s0 { s0 with transactionHash := some h } =
      ({ s0 with transactionHash := some h }, []) :=
    eff4_nodep _ (by rw [hpd]; simp [depsOf, hs0def, he])
  have E5 : eff5 s0 { s0 with transactionHash := some h } =
      ({ s0 with transactionHash := some h }, []) :=
    eff5_nodep _ (by rw [hpd, hs0def]; rfl)
  have E6 : eff6 s0 { s0 with transactionHash := some h } =
      ({ s0 with transactionHash := some h }, []) :=
    eff6_nodep _ (by rw [hpd]; simp [depsOf, transactionConfirmError, hs0def, hh])
  have E7 : eff7 P s0 { s0 with transactionHash := some h } =
      ({ s0 with transactionHash := some h }, []) :=
    eff7_nodep _ (by rw [hpd, hs0def]; rfl)
  have E8 : eff8 s0 { s0 with transactionHash := some h } =
      ({ s0 with transactionHash := some h }, []) :=
    eff8_nodep _ (by rw [hpd]; simp [depsOf, isTransactionSuccess, hs0def, hh])
  have hp1 := effectsPass_eval E1 E2 E3 E4 E5 E6 E7 E8
  simp only [List.nil_append, List.append_nil] at hp1
  have hcond : ¬depsOf s0 = s0.prevDeps := by
    rw [hpd]
    intro hx
    have hx2 := congrArg Deps.d2 hx
    simp [depsOf, hs0def, hd] at hx2
  set s1 : HookState :=
    { s0 with transactionHash := some h, prevDeps := depsOf s0 } with hs1def
  have hp1' : effectsPass P s0 = (s1, []) := by rw [hp1, hs1def]
  have hsettle : effectsPass P s1 = ({ s1 with prevDeps := depsOf s1 }, []) :=
    effectsPass_eval (eff1_nodep s1 (by rw [hs1def, hs0def]; rfl))
      (eff2_nodep _ (by rw [hs1def, hs0def]; rfl))
      (eff3_nodep _ (by rw [hs1def, hs0def]; rfl))
      (eff4_nodep _ (by rw [hs1def, hs0def]; rfl))
      (eff5_nodep _ (by rw [hs1def, hs0def]; rfl))
      (eff6_nodep _ (by rw [hs1def]; simp [depsOf, transactionConfirmError, hs0def, hh, hr, Receipt.init]))
      (eff7_nodep _ (by rw [hs1def, hs0def]; rfl))
      (eff8_notSuccess _ (by rw [hs1def]; simp [isTransactionSuccess, hs0def, hr, Receipt.init]))
  have hrl : renderLoop P renderFuel s0 =
      ((renderLoop P 7 s1).1, [] ++ (renderLoop P 7 s1).2) :=
    renderLoop_go' 7 hcond hp1'
  have hrl2 : renderLoop P 7 s1 = ({ s1 with prevDeps := depsOf s1 }, []) :=
    renderLoop_settle 7 (by omega) hsettle
  simp only [hrl, hrl2, List.append_nil, List.nil_append]
  rw [hs1def, hs0def]
  rfl

/-- Step evaluation: the transaction write failing while the transaction
side is fresh. -/
lemma step_transactionWriteErr_eq (P : Params) (s : HookState) (e : Err)
    (hSync : Sync s) (hp : s.transactionClient.pending = true)
    (hd : s.transactionClient.data = none) (he : s.transactionClient.error = none)
    (hh : s.transactionHash = none) :
    step P s (Event.evTransactionWriteErr e) =
      ({ s with transactionClient := { pending := false, data := none, error := some e }
              , transactionError := some e, isTransacting := false
              , prevDeps := depsOf { s with
                  transactionClient := { pending := false, data := none, error := some e }
                  , transactionError := some e, isTransacting := false } },
       [Output.cbTransactionError e, Output.cbTransactionError e]) := by
  have hen : enabledEvent s (Event.evTransactionWriteErr e) = true := hp
  rw [step_enabled_eq P hen nofun nofun]
  have happ : applyEvent s (Event.evTransactionWriteErr e) =
      ({ s with transactionClient := { pending := false, data := none, error := some e }
              , transactionError := some e, isTransacting := false },
       [Output.cbTransactionError e]) := rfl
  simp only [happ]
  set s0 : HookState :=
    { s with transactionClient := { pending := false, data := none, error := some e }
           , transactionError := some e, isTransacting := false } with hs0def
  have hpd : s0.prevDeps = depsOf s := hSync.symm
  have E1 : eff1 s0 s0 = s0 := eff1_nodep s0 (by rw [hpd, hs0def]; rfl)
  have E2 : eff2 s0 s0 = s0 := eff2_quiet s0 (by rw [hs0def])
  have E3 : eff3 s0 s0 = (s0, []) := eff3_nodep _ (by rw [hpd, hs0def]; rfl)
  have E4 : eff4 s0 s0 =
      ({ s0 with transactionError := some e, isTransacting := false },
       [Output.cbTransactionError e]) :=
    eff4_fire s0 (by rw [hpd]; simp [depsOf, hs0def, he]) (by rw [hs0def])
  have E5 : eff5 s0 { s0 with transactionError := some e, isTransacting := false } =
      ({ s0 with transactionError := some e, isTransacting := false }, []) :=
    eff5_nodep _ (by rw [hpd, hs0def]; rfl)
  have E6 : eff6 s0 { s0 with transactionError := some e, isTransacting := false } =
      ({ s0 with transactionError := some e, isTransacting := false }, []) :=
    eff6_nodep _ (by rw [hpd]; simp [depsOf, transactionConfirmError, hs0def, hh])
  have E7 : eff7 P s0 { s0 with transactionError := some e, isTransacting := false } =
      ({ s0 with transactionError := some e, isTransacting := false }, []) :=
    eff7_nodep _ (by rw [hpd, hs0def]; rfl)
  have E8 : eff8 s0 { s0 with transactionError := some e, isTransacting := false } =
      ({ s0 with transactionError := some e, isTransacting := false }, []) :=
    eff8_nodep _ (by rw [hpd, hs0def]; rfl)
  have hp1 := effectsPass_eval E1 E2 E3 E4 E5 E6 E7 E8
  simp only [List.nil_append, List.append_nil] at hp1
  have hcond : ¬depsOf s0 = s0.prevDeps := by
    rw [hpd]
    intro hx
    have hx4 := congrArg Deps.d4 hx
    simp [depsOf, hs0def, he] at hx4
  set s1 : HookState :=
    { s0 with transactionError := some e, isTransacting := false, prevDeps := depsOf s0 }
    with hs1def
  have hp1' : effectsPass P s0 = (s1, [Output.cbTransactionError e]) := by
    rw [hp1, hs1def]
  have hsettle : effectsPass P s1 = ({ s1 with prevDeps := depsOf s1 }, []) :=
    effectsPass_eval (eff1_nodep s1 (by rw [hs1def, hs0def]; rfl))
      (eff2_nodep _ (by rw [hs1def, hs0def]; rfl))
      (eff3_nodep _ (by rw [hs1def, hs0def]; rfl))
      (eff4_nodep _ (by rw [hs1def, hs0def]; rfl))
      (eff5_nodep _ (by rw [hs1def, hs0def]; rfl))
      (eff6_nodep _ (by rw [hs1def, hs0def]; rfl))
      (eff7_nodep _ (by rw [hs1def, hs0def]; rfl))
      (eff8_nodep _ (by rw [hs1def, hs0def]; rfl))
  have hrl : renderLoop P renderFuel s0 =
      ((renderLoop P 7 s1).1, [Output.cbTransactionError e] ++ (renderLoop P 7 s1).2) :=
    renderLoop_go' 7 hcond hp1'
  have hrl2 : renderLoop P 7 s1 = ({ s1 with prevDeps := depsOf s1 }, []) :=
    renderLoop_settle 7 (by omega) hsettle
  simp only [hrl, hrl2, List.append_nil, List.nil_append]
  rw [hs1def, hs0def]
  rfl

/-- Step evaluation: the transaction confirming — effect 8 fires. -/
lemma step_transactionConfirmOk_eq (P : Params) (s : HookState) {a : Hash}
    (hSync : Sync s) (hh : s.transactionHash = some a)
    (hs : s.transactionReceipt.success = false) (her : s.transactionReceipt.error = none) :
    step P s Event.evTransactionConfirmOk =
      ({ s with transactionReceipt := { success := true, error := none }
              , isTransacting := false
              , prevDeps := depsOf { s with
                  transactionReceipt := { success := true, error := none }
                  , isTransacting := false } },
       [Output.cbTransactionSuccess a, Output.cbFinalSuccess]) := by
  have hen : enabledEvent s Event.evTransactionConfirmOk = true := by
    simp [enabledEvent, isTransactionConfirming, hh, hs, her]
  rw [step_enabled_eq P hen nofun nofun]
  have happ : applyEvent s Event.evTransactionConfirmOk =
      ({ s with transactionReceipt := { success := true, error := none } }, []) := rfl
  simp only [happ]
  set s0 : HookState :=
    { s with transactionReceipt := { success := true, error := none } } with hs0def
  have hpd : s0.prevDeps = depsOf s := hSync.symm
  have E1 : eff1 s0 s0 = s0 := eff1_nodep s0 (by rw [hpd, hs0def]; rfl)
  have E2 : eff2 s0 s0 = s0 := eff2_nodep _ (by rw [hpd, hs0def]; rfl)
  have E3 : eff3 s0 s0 = (s0, []) := eff3_nodep _ (by rw [hpd, hs0def]; rfl)
  have E4 : eff4 s0 s0 = (s0, []) := eff4_nodep _ (by rw [hpd, hs0def]; rfl)
  have E5 : eff5 s0 s0 = (s0, []) := eff5_nodep _ (by rw [hpd, hs0def]; rfl)
  have E6 : eff6 s0 s0 = (s0, []) :=
    eff6_nodep _ (by rw [hpd]; simp [depsOf, transactionConfirmError, hs0def, hh, her])
  have E7 : eff7 P s0 s0 = (s0, []) := eff7_nodep _ (by rw [hpd, hs0def]; rfl)
  have E8 : eff8 s0 s0 =
      ({ s0 with isTransacting := false },
       [Output.cbTransactionSuccess a, Output.cbFinalSuccess]) := by
    refine eff8_fire s0 (by rw [hpd]; simp [depsOf, isTransactionSuccess, hs0def, hh, hs])
      (by rw [hs0def]; exact hh) (by simp [isTransactionSuccess, hs0def, hh])
  have hp1 := effectsPass_eval E1 E2 E3 E4 E5 E6 E7 E8
  simp only [List.nil_append, List.append_nil] at hp1
  have hcond : ¬depsOf s0 = s0.prevDeps := by
    rw [hpd]
    intro hx
    have hx8 := congrArg Deps.d8 hx
    simp [depsOf, isTransactionSuccess, hs0def, hh, hs] at hx8
  set s1 : HookState :=
    { s0 with isTransacting := false, prevDeps := depsOf s0 } with hs1def
  have hp1' : effectsPass P s0 =
      (s1, [Output.cbTransactionSuccess a, Output.cbFinalSuccess]) := by
    rw [hp1, hs1def]
  have hsettle : effectsPass P s1 = ({ s1 with prevDeps := depsOf s1 }, []) :=
    effectsPass_eval (eff1_nodep s1 (by rw [hs1def, hs0def]; rfl))
      (eff2_nodep _ (by rw [hs1def, hs0def]; rfl))
      (eff3_nodep _ (by rw [hs1def, hs0def]; rfl))
      (eff4_nodep _ (by rw [hs1def, hs0def]; rfl))
      (eff5_nodep _ (by rw [hs1def, hs0def]; rfl))
      (eff6_nodep _ (by rw [hs1def, hs0def]; rfl))
      (eff7_nodep _ (by rw [hs1def, hs0def]; rfl))
      (eff8_nodep _ (by rw [hs1def, hs0def]; rfl))
  have hrl : renderLoop P renderFuel s0 =
      ((renderLoop P 7 s1).1,
       [Output.cbTransactionSuccess a, Output.cbFinalSuccess] ++ (renderLoop P 7 s1).2) :=
    renderLoop_go' 7 hcond hp1'
  have hrl2 : renderLoop P 7 s1 = ({ s1 with prevDeps := depsOf s1 }, []) :=
    renderLoop_settle 7 (by omega) hsettle
  simp only [hrl, hrl2, List.append_nil, List.nil_append]
  rw [hs1def, hs0def]
  rfl

/-- Step evaluation: the transaction confirmation failing — effect 6
fires. -/
lemma step_transactionConfirmErr_eq (P : Params) (s : HookState) (e : Err) {a : Hash}
    (hSync : Sync s) (hh : s.transactionHash = some a)
    (hs : s.transactionReceipt.success = false) (her : s.transactionReceipt.error = none) :
    step P s (Event.evTransactionConfirmErr e) =
      ({ s with transactionReceipt := { success := false, error := some e }
              , transactionError := some e, isTransacting := false
              , prevDeps := depsOf { s with
                  transactionReceipt := { success := false, error := some e }
                  , transactionError := some e, isTransacting := false } },
       [Output.cbTransactionError e]) := by
  have hen : enabledEvent s (Event.evTransactionConfirmErr e) = true := by
    simp [enabledEvent, isTransactionConfirming, hh, hs, her]
  rw [step_enabled_eq P hen nofun nofun]
  have happ : applyEvent s (Event.evTransactionConfirmErr e) =
      ({ s with transactionReceipt := { success := false, error := some e } }, []) := rfl
  simp only [happ]
  set s0 : HookState :=
    { s with transactionReceipt := { success := false, error := some e } } with hs0def
  have hpd : s0.prevDeps = depsOf s := hSync.symm
  have E1 : eff1 s0 s0 = s0 := eff1_nodep s0 (by rw [hpd, hs0def]; rfl)
  have E2 : eff2 s0 s0 = s0 := eff2_nodep _ (by rw [hpd, hs0def]; rfl)
  have E3 : eff3 s0 s0 = (s0, []) := eff3_nodep _ (by rw [hpd, hs0def]; rfl)
  have E4 : eff4 s0 s0 = (s0, []) := eff4_nodep _ (by rw [hpd, hs0def]; rfl)
  have E5 : eff5 s0 s0 = (s0, []) := eff5_nodep _ (by rw [hpd, hs0def]; rfl)
  have E6 : eff6 s0 s0 =
      ({ s0 with transactionError := some e, isTransacting := false },
       [Output.cbTransactionError e]) :=
    eff6_fire s0
      (by rw [hpd]; simp [depsOf, transactionConfirmError, hs0def, hh, her])
      (by simp [transactionConfirmError, hs0def, hh])
  have E7 : eff7 P s0 { s0 with transactionError := some e, isTransacting := false } =
      ({ s0 with transactionError := some e, isTransacting := false }, []) :=
    eff7_nodep _ (by rw [hpd, hs0def]; rfl)
  have E8 : eff8 s0 { s0 with transactionError := some e, isTransacting := false } =
      ({ s0 with transactionError := some e, isTransacting := false }, []) :=
    eff8_nodep _ (by rw [hpd]; simp [depsOf, isTransactionSuccess, hs0def, hh, hs])
  have hp1 := effectsPass_eval E1 E2 E3 E4 E5 E6 E7 E8
  simp only [List.nil_append, List.append_nil] at hp1
  have hcond : ¬depsOf s0 = s0.prevDeps := by
    rw [hpd]
    intro hx
    have hx6 := congrArg Deps.d6 hx
    simp [depsOf, transactionConfirmError, hs0def, hh, her] at hx6
  set s1 : HookState :=
    { s0 with transactionError := some e, isTransacting := false, prevDeps := depsOf s0 }
    with hs1def
  have hp1' : effectsPass P s0 = (s1, [Output.cbTransactionError e]) := by
    rw [hp1, hs1def]
  have hsettle : effectsPass P s1 = ({ s1 with prevDeps := depsOf s1 }, []) :=
    effectsPass_eval (eff1_nodep s1 (by rw [hs1def, hs0def]; rfl))
      (eff2_nodep _ (by rw [hs1def, hs0def]; rfl))
      (eff3_nodep _ (by rw [hs1def, hs0def]; rfl))
      (eff4_nodep _ (by rw [hs1def, hs0def]; rfl))
      (eff5_nodep _ (by rw [hs1def, hs0def]; rfl))
      (eff6_nodep _ (by rw [hs1def, hs0def]; rfl))
      (eff7_nodep _ (by rw [hs1def, hs0def]; rfl))
      (eff8_nodep _ (by rw [hs1def, hs0def]; rfl))
  have hrl : renderLoop P renderFuel s0 =
      ((renderLoop P 7 s1).1, [Output.cbTransactionError e] ++ (renderLoop P 7 s1).2) :=
    renderLoop_go' 7 hcond hp1'
  have hrl2 : renderLoop P 7 s1 = ({ s1 with prevDeps := depsOf s1 }, []) :=
    renderLoop_settle 7 (by omega) hsettle
  simp only [hrl, hrl2, List.append_nil, List.nil_append]
  rw [hs1def, hs0def]
  rfl

/-- State reached by `execute` with an `approvalConfig`: everything
cleared, the approval write in flight. -/
lemma step_execute_approval_eq (P : Params) (cfg : ApprovalConfig)
    (hcfg : P.approvalConfig = some cfg) (s : HookState) :
    step P s Event.evExecute =
      ({ approvalHash := none, transactionHash := none, isApproving := true,
         isTransacting := false, approvalError := none, transactionError := none,
         approvalClient := { pending := true, data := none, error := none },
         transactionClient := WriteClient.init,
         approvalReceipt := Receipt.init, transactionReceipt := Receipt.init,
         prevDeps := initDeps },
       [Output.writeApprovalCall cfg.tokenAddress cfg.tokenAbi "approve"
          [ArgVal.addr cfg.spenderAddress, ArgVal.amt (approvalAmount cfg)]]) := by
  rw [step_execute_eq]
  have hex : execute P s =
      ({ approvalHash := none, transactionHash := none, isApproving := true,
         isTransacting := false, approvalError := none, transactionError := none,
         approvalClient := { pending := true, data := none, error := none },
         transactionClient := WriteClient.init,
         approvalReceipt := Receipt.init, transactionReceipt := Receipt.init,
         prevDeps := s.prevDeps },
       [Output.writeApprovalCall cfg.tokenAddress cfg.tokenAbi "approve"
          [ArgVal.addr cfg.spenderAddress, ArgVal.amt (approvalAmount cfg)]]) := by
    simp [execute, hcfg, executeApproval]
  rw [hex, renderLoop_quiet' (by decide) rfl rfl rfl rfl rfl rfl]
  rfl

lemma inv0_reset_state (s : HookState) :
    Inv0 ({ reset s with prevDeps := depsOf (reset s) }) := by
  refine ⟨rfl, ?_, ?_, fun _ => rfl⟩ <;> intro hx <;>
    simp [reset, WriteClient.init] at hx

lemma frozen_reset_state (s : HookState) :
    Frozen ({ reset s with prevDeps := depsOf (reset s) }) := by
  refine ⟨rfl, rfl, ?_, ?_, fun _ => rfl⟩ <;> intro hx <;>
    simp [reset, WriteClient.init] at hx

/-- Any non-`execute` step from the pre-submission invariant either stays
in it without submitting, or submits the dependent transaction exactly
once and freezes the approval side. -/
lemma inv0_step (P : Params) (s : HookState) (ev : Event) (h : Inv0 s)
    (hne : ev ≠ Event.evExecute) :
    (countTx (step P s ev).2 = 0 ∧ Inv0 (step P s ev).1) ∨
    (countTx (step P s ev).2 ≤ 1 ∧ Frozen (step P s ev).1) := by
  obtain ⟨hSync, hA, hT, hR⟩ := h
  cases ev with
  | evExecute => exact absurd rfl hne
  | evReset =>
      left
      rw [step_reset_state]
      exact ⟨rfl, inv0_reset_state s⟩
  | evApprovalWriteOk h' =>
      by_cases hp : s.approvalClient.pending = true
      · obtain ⟨hd, he, hh, hr⟩ := hA hp
        left
        rw [step_approvalWriteOk_eq P s h' hSync hp hd he hh hr]
        refine ⟨rfl, rfl, ?_, ?_, ?_⟩
        · intro hx; simp at hx
        · intro hx; exact hT hx
        · intro hx; exact hR hx
      · have hen' : enabledEvent s (Event.evApprovalWriteOk h') = false := by simpa using hp
        left
        rw [step_disabled P hen']
        exact ⟨rfl, hSync, hA, hT, hR⟩
  | evApprovalWriteErr e =>
      by_cases hp : s.approvalClient.pending = true
      · obtain ⟨hd, he, hh, hr⟩ := hA hp
        left
        rw [step_approvalWriteErr_eq P s e hSync hp hd he hh]
        refine ⟨rfl, rfl, ?_, ?_, ?_⟩
        · intro hx; simp at hx
        · intro hx; exact hT hx
        · intro hx; exact hR hx
      · have hen' : enabledEvent s (Event.evApprovalWriteErr e) = false := by simpa using hp
        left
        rw [step_disabled P hen']
        exact ⟨rfl, hSync, hA, hT, hR⟩
  | evApprovalConfirmOk =>
      by_cases hen : enabledEvent s Event.evApprovalConfirmOk = true
      · have h1 : (s.approvalHash.isSome = true ∧ s.approvalReceipt.success = false) ∧
            s.approvalReceipt.error = none := by
          simpa [enabledEvent, isApprovingConfirming, Bool.and_eq_true,
            Bool.not_eq_true', Option.isNone_iff_eq_none] using hen
        obtain ⟨⟨ha, hsu⟩, her⟩ := h1
        obtain ⟨a, hha⟩ := Option.isSome_iff_exists.mp ha
        have hpend : s.approvalClient.pending = false := by
          by_contra hx
          have := (hA (by simpa using hx)).2.2.1
          rw [this] at hha
          cases hha
        by_cases hfire : s.isTransacting = false ∧ s.transactionHash = none
        · right
          rw [step_approvalConfirmOk_fire_eq P s hSync hha hsu her hfire.1 hfire.2]
          refine ⟨Nat.le_refl 1, rfl, hpend, fun _ => Or.inl rfl, ?_, ?_⟩
          · intro _; exact ⟨rfl, rfl, hfire.2⟩
          · intro hx; exact hR hx
        · have hb : s.isTransacting = true ∨ s.transactionHash.isSome = true := by
            by_cases ht : s.isTransacting = true
            · exact Or.inl ht
            · refine Or.inr ?_
              have ht' : s.isTransacting = false := by simpa using ht
              rcases hx : s.transactionHash with _ | x
              · exact absurd ⟨ht', hx⟩ hfire
              · simp
          left
          rw [step_approvalConfirmOk_skip_eq P s hSync hha hsu her hb]
          refine ⟨rfl, rfl, ?_, ?_, ?_⟩
          · intro hx; exact absurd hx (by simp [hpend])
          · intro hx; exact hT hx
          · intro hx; exact hR hx
      · have hen' : enabledEvent s Event.evApprovalConfirmOk = false := by simpa using hen
        left
        rw [step_disabled P hen']
        exact ⟨rfl, hSync, hA, hT, hR⟩
  | evApprovalConfirmErr e =>
      by_cases hen : enabledEvent s (Event.evApprovalConfirmErr e) = true
      · have h1 : (s.approvalHash.isSome = true ∧ s.approvalReceipt.success = false) ∧
            s.approvalReceipt.error = none := by
          simpa [enabledEvent, isApprovingConfirming, Bool.and_eq_true,
            Bool.not_eq_true', Option.isNone_iff_eq_none] using hen
        obtain ⟨⟨ha, hsu⟩, her⟩ := h1
        obtain ⟨a, hha⟩ := Option.isSome_iff_exists.mp ha
        have hpend : s.approvalClient.pending = false := by
          by_contra hx
          have := (hA (by simpa using hx)).2.2.1
          rw [this] at hha
          cases hha
        left
        rw [step_approvalConfirmErr_eq P s e hSync hha hsu her]
        refine ⟨rfl, rfl, ?_, ?_, ?_⟩
        · intro hx; exact absurd hx (by simp [hpend])
        · intro hx; exact hT hx
        · intro hx; exact hR hx
      · have hen' : enabledEvent s (Event.evApprovalConfirmErr e) = false := by simpa using hen
        left
        rw [step_disabled P hen']
        exact ⟨rfl, hSync, hA, hT, hR⟩
  | evTransactionWriteOk h' =>
      by_cases hp : s.transactionClient.pending = true
      · obtain ⟨hd, he, hh⟩ := hT hp
        have hr := hR hh
        left
        rw [step_transactionWriteOk_eq P s h' hSync hp hd he hh hr]
        refine ⟨rfl, rfl, ?_, ?_, ?_⟩
        · intro hx; exact hA hx
        · intro hx; simp at hx
        · intro hx; exact Option.noConfusion hx
      · have hen' : enabledEvent s (Event.evTransactionWriteOk h') = false := by simpa using hp
        left
        rw [step_disabled P hen']
        exact ⟨rfl, hSync, hA, hT, hR⟩
  | evTransactionWriteErr e =>
      by_cases hp : s.transactionClient.pending = true
      · obtain ⟨hd, he, hh⟩ := hT hp
        left
        rw [step_transactionWriteErr_eq P s e hSync hp hd he hh]
        refine ⟨rfl, rfl, ?_, ?_, ?_⟩
        · intro hx; exact hA hx
        · intro hx; simp at hx
        · intro hx; exact hR hx
      · have hen' : enabledEvent s (Event.evTransactionWriteErr e) = false := by simpa using hp
        left
        rw [step_disabled P hen']
        exact ⟨rfl, hSync, hA, hT, hR⟩
  | evTransactionConfirmOk =>
      by_cases hen : enabledEvent s Event.evTransactionConfirmOk = true
      · have h1 : (s.transactionHash.isSome = true ∧
            s.transactionReceipt.success = false) ∧
            s.transactionReceipt.error = none := by
          simpa [enabledEvent, isTransactionConfirming, Bool.and_eq_true,
            Bool.not_eq_true', Option.isNone_iff_eq_none] using hen
        obtain ⟨⟨ha, hsu⟩, her⟩ := h1
        obtain ⟨a, hha⟩ := Option.isSome_iff_exists.mp ha
        left
        rw [step_transactionConfirmOk_eq P s hSync hha hsu her]
        refine ⟨rfl, rfl, ?_, ?_, ?_⟩
        · intro hx; exact hA hx
        · intro hx
          have := (hT hx).2.2
          rw [this] at hha
          cases hha
        · intro hx
          rw [hx] at hha
          cases hha
      · have hen' : enabledEvent s Event.evTransactionConfirmOk = false := by simpa using hen
        left
        rw [step_disabled P hen']
        exact ⟨rfl, hSync, hA, hT, hR⟩
  | evTransactionConfirmErr e =>
      by_cases hen : enabledEvent s (Event.evTransactionConfirmErr e) = true
      · have h1 : (s.transactionHash.isSome = true ∧
            s.transactionReceipt.success = false) ∧
            s.transactionReceipt.error = none := by
          simpa [enabledEvent, isTransactionConfirming, Bool.and_eq_true,
            Bool.not_eq_true', Option.isNone_iff_eq_none] using hen
        obtain ⟨⟨ha, hsu⟩, her⟩ := h1
        obtain ⟨a, hha⟩ := Option.isSome_iff_exists.mp ha
        left
        rw [step_transactionConfirmErr_eq P s e hSync hha hsu her]
        refine ⟨rfl, rfl, ?_, ?_, ?_⟩
        · intro hx; exact hA hx
        · intro hx
          have := (hT hx).2.2
          rw [this] at hha
          cases hha
        · intro hx
          rw [hx] at hha
          cases hha
      · have hen' : enabledEvent s (Event.evTransactionConfirmErr e) = false := by simpa using hen
        left
        rw [step_disabled P hen']
        exact ⟨rfl, hSync, hA, hT, hR⟩

/-- Once the approval side is frozen, no later non-`execute` step can
submit the dependent transaction again. -/
lemma frozen_step (P : Params) (s : HookState) (ev : Event) (h : Frozen s)
    (hne : ev ≠ Event.evExecute) :
    countTx (step P s ev).2 = 0 ∧ Frozen (step P s ev).1 := by
  obtain ⟨hSync, hpend, hres, hT, hR⟩ := h
  have hconfOff : enabledEvent s Event.evApprovalConfirmOk = false := by
    simp only [enabledEvent, isApprovingConfirming]
    cases hc : s.approvalHash with
    | none => simp
    | some a =>
        rcases hres (by simp [hc]) with hsucc | herr
        · simp [hsucc]
        · obtain ⟨e0, he0⟩ := Option.isSome_iff_exists.mp herr
          simp [he0]
  cases ev with
  | evExecute => exact absurd rfl hne
  | evReset =>
      rw [step_reset_state]
      exact ⟨rfl, frozen_reset_state s⟩
  | evApprovalWriteOk h' =>
      have hen' : enabledEvent s (Event.evApprovalWriteOk h') = false := hpend
      rw [step_disabled P hen']
      exact ⟨rfl, hSync, hpend, hres, hT, hR⟩
  | evApprovalWriteErr e =>
      have hen' : enabledEvent s (Event.evApprovalWriteErr e) = false := hpend
      rw [step_disabled P hen']
      exact ⟨rfl, hSync, hpend, hres, hT, hR⟩
  | evApprovalConfirmOk =>
      rw [step_disabled P hconfOff]
      exact ⟨rfl, hSync, hpend, hres, hT, hR⟩
  | evApprovalConfirmErr e =>
      have hen' : enabledEvent s (Event.evApprovalConfirmErr e) = false := hconfOff
      rw [step_disabled P hen']
      exact ⟨rfl, hSync, hpend, hres, hT, hR⟩
  | evTransactionWriteOk h' =>
      by_cases hp : s.transactionClient.pending = true
      · obtain ⟨hd, he, hh⟩ := hT hp
        have hr := hR hh
        rw [step_transactionWriteOk_eq P s h' hSync hp hd he hh hr]
        refine ⟨rfl, rfl, hpend, ?_, ?_, ?_⟩
        · intro hx; exact hres hx
        · intro hx; simp at hx
        · intro hx; exact Option.noConfusion hx
      · have hen' : enabledEvent s (Event.evTransactionWriteOk h') = false := by
          simpa using hp
        rw [step_disabled P hen']
        exact ⟨rfl, hSync, hpend, hres, hT, hR⟩
  | evTransactionWriteErr e =>
      by_cases hp : s.transactionClient.pending = true
      · obtain ⟨hd, he, hh⟩ := hT hp
        rw [step_transactionWriteErr_eq P s e hSync hp hd he hh]
        refine ⟨rfl, rfl, hpend, ?_, ?_, ?_⟩
        · intro hx; exact hres hx
        · intro hx; simp at hx
        · intro hx; exact hR hx
      · have hen' : enabledEvent s (Event.evTransactionWriteErr e) = false := by
          simpa using hp
        rw [step_disabled P hen']
        exact ⟨rfl, hSync, hpend, hres, hT, hR⟩
  | evTransactionConfirmOk =>
      by_cases hen : enabledEvent s Event.evTransactionConfirmOk = true
      · have h1 : (s.transactionHash.isSome = true ∧
            s.transactionReceipt.success = false) ∧
            s.transactionReceipt.error = none := by
          simpa [enabledEvent, isTransactionConfirming, Bool.and_eq_true,
            Bool.not_eq_true', Option.isNone_iff_eq_none] using hen
        obtain ⟨⟨ha, hsu⟩, her⟩ := h1
        obtain ⟨a, hha⟩ := Option.isSome_iff_exists.mp ha
        rw [step_transactionConfirmOk_eq P s hSync hha hsu her]
        refine ⟨rfl, rfl, hpend, ?_, ?_, ?_⟩
        · intro hx; exact hres hx
        · intro hx
          have := (hT hx).2.2
          rw [this] at hha
          cases hha
        · intro hx
          rw [hx] at hha
          cases hha
      · have hen' : enabledEvent s Event.evTransactionConfirmOk = false := by simpa using hen
        rw [step_disabled P hen']
        exact ⟨rfl, hSync, hpend, hres, hT, hR⟩
  | evTransactionConfirmErr e =>
      by_cases hen : enabledEvent s (Event.evTransactionConfirmErr e) = true
      · have h1 : (s.transactionHash.isSome = true ∧
            s.transactionReceipt.success = false) ∧
            s.transactionReceipt.error = none := by
          simpa [enabledEvent, isTransactionConfirming, Bool.and_eq_true,
            Bool.not_eq_true', Option.isNone_iff_eq_none] using hen
        obtain ⟨⟨ha, hsu⟩, her⟩ := h1
        obtain ⟨a, hha⟩ := Option.isSome_iff_exists.mp ha
        rw [step_transactionConfirmErr_eq P s e hSync hha hsu her]
        refine ⟨rfl, rfl, hpend, ?_, ?_, ?_⟩
        · intro hx; exact hres hx
        · intro hx
          have := (hT hx).2.2
          rw [this] at hha
          cases hha
        · intro hx
          rw [hx] at hha
          cases hha
      · have hen' : enabledEvent s (Event.evTransactionConfirmErr e) = false := by
          simpa using hen
        rw [step_disabled P hen']
        exact ⟨rfl, hSync, hpend, hres, hT, hR⟩

/-- `execute`-free traces from a frozen state never submit again. -/
lemma run_frozen (P : Params) :
    ∀ (evs : List Event) (s : HookState), Frozen s →
      (∀ ev ∈ evs, ev ≠ Event.evExecute) →
      countTx (run P s evs).2 = 0 ∧ Frozen (run P s evs).1 := by
  intro evs
  induction evs with
  | nil => intro s h _; exact ⟨rfl, h⟩
  | cons ev evs ih =>
      intro s h hne
      obtain ⟨h1, h2⟩ := frozen_step P s ev h (hne ev (List.mem_cons_self _ _))
      obtain ⟨h3, h4⟩ := ih _ h2 (fun e he => hne e (List.mem_cons_of_mem _ he))
      exact ⟨by simp only [run]; rw [countTx_append, h1, h3], h4⟩

/-- `execute`-free traces from the pre-submission invariant submit the
dependent transaction at most once. -/
lemma run_inv0 (P : Params) :
    ∀ (evs : List Event) (s : HookState), Inv0 s →
      (∀ ev ∈ evs, ev ≠ Event.evExecute) →
      countTx (run P s evs).2 ≤ 1 := by
  intro evs
  induction evs with
  | nil => intro s _ _; simp [run]
  | cons ev evs ih =>
      intro s h hne
      have hcount : countTx (run P s (ev :: evs)).2 =
          countTx (step P s ev).2 + countTx (run P (step P s ev).1 evs).2 := by
        simp only [run]; rw [countTx_append]
      rcases inv0_step P s ev h (hne ev (List.mem_cons_self _ _)) with ⟨h1, h2⟩ | ⟨h1, h2⟩
      · have h3 := ih _ h2 (fun e he => hne e (List.mem_cons_of_mem _ he))
        omega
      · have h3 := (run_frozen P evs _ h2 (fun e he => hne e (List.mem_cons_of_mem _ he))).1
        omega

/-- C9: within a single execution of the approval flow, the dependent
transaction is submitted at most once — the `execute` step itself submits
only the approval, every following `execute`-free trace submits the
dependent transaction at most once, and the effect that triggers
`executeTransaction` fires only when the approval is observed successful
with no transaction in flight (`isTransacting` false) and no
`transactionHash` recorded. -/
theorem transaction_submitted_at_most_once (P : Params) (cfg : ApprovalConfig)
    (hP : P.approvalConfig = some cfg) (s : HookState) (evs : List Event)
    (hevs : ∀ ev ∈ evs, ev ≠ Event.evExecute) :
    countTx (step P s Event.evExecute).2 = 0 ∧
    countTx (run P (step P s Event.evExecute).1 evs).2 ≤ 1 ∧
    (∀ s' : HookState, 1 ≤ countTx (effectsPass P s').2 →
       isApprovalSuccess s' = true ∧ s'.isTransacting = false ∧
       s'.transactionHash = none) := by
  have hstate := step_execute_approval_eq P cfg hP s
  have hinv : Inv0 postExecuteApproval := by decide
  refine ⟨?_, ?_, fun s' => effectsPass_countTx_pos P s'⟩
  · rw [hstate]
    rfl
  · rw [hstate]
    exact run_inv0 P evs _ hinv hevs

/-- Witness for C9: a full successful flow submits the dependent
transaction exactly once after `execute`. -/
theorem transaction_submitted_at_most_once_witness :
    countTx (run PW (step PW HookState.init Event.evExecute).1
      [Event.evApprovalWriteOk "0xa1", Event.evApprovalConfirmOk,
       Event.evTransactionWriteOk "0xt1", Event.evTransactionConfirmOk]).2 ≤ 1 :=
  (transaction_submitted_at_most_once PW cfgW rfl HookState.init
    [Event.evApprovalWriteOk "0xa1", Event.evApprovalConfirmOk,
     Event.evTransactionWriteOk "0xt1", Event.evTransactionConfirmOk]
    (by decide)).2.1

/-- Witness for C7 at a concrete primitive and parameters. -/
theorem useUniversalReadContract_refines_spec_witness :
    useUniversalReadContract readPrimW readParamsW =
      useUniversalReadContractSpec readPrimW readParamsW :=
  useUniversalReadContract_refines_spec readPrimW readParamsW

end Hooks
